import Mathlib

/-!
Verification of the publication orchestration core of the
evo_omni_publisher_engine repository, as a shallow embedding in Lean.

The embedding models the orchestrator (`services/publisher_manager.py`,
function `process_single_post`) and the platform drivers
(`publishers/youtube.py`, `publishers/tiktok.py`, `publishers/instagram.py`,
`publishers/facebook.py`).  External effects (the database, the blob store,
HTTP responses of the platform APIs, the local filesystem) are modelled
explicitly: the state that the code reads and writes is passed around as
values, and the responses of remote services are supplied by an environment
record.  Every function mirrors the control flow of its Python source,
including the exact branch conditions and truthiness tests.
-/

/-! ## Data model (`database/models.py`) -/

/-- Truthiness of a Python value modelled as an optional string:
`None` and the empty string are falsy, every other string is truthy. -/
def optTruthy : Option String → Bool
  | none => false
  | some s => s != ""

/-- One element of the `available_accounts` list inside a Meta token bundle
(a discovered Facebook-Page / Instagram-Business-Account pairing).
Fields may be absent in the JSON, hence `Option`. -/
structure MetaAccount where
  ig_id : Option String
  page_id : Option String
deriving Repr, DecidableEq

/-- The opaque `token_data` JSON bundle of a `SocialCredential` row, with the
fields the orchestration core reads. -/
structure TokenData where
  access_token : Option String
  refresh_token : Option String
  instagram_account_id : Option String
  available_accounts : List MetaAccount
deriving Repr, DecidableEq

/-- A row of the `social_credentials` table. -/
structure SocialCredential where
  client_id : Nat
  platform : String
  token_data : TokenData
deriving Repr, DecidableEq

/-- A row of the `scheduled_posts` table. -/
structure Post where
  id : Nat
  client_id : Nat
  video_file_id : String
  title : String
  description : String
  platforms : List String
  status : String
deriving Repr, DecidableEq

/-- `db.query(SocialCredential).filter_by(client_id=..., platform=...).first()`. -/
def lookupCred (db : List SocialCredential) (cid : Nat) (platform : String) :
    Option SocialCredential :=
  db.find? (fun c => c.client_id == cid && c.platform == platform)

/-- `db.query(ScheduledPost).filter(ScheduledPost.id == post_id).first()`. -/
def lookupPost (posts : List Post) (pid : Nat) : Option Post :=
  posts.find? (fun p => p.id == pid)

/-- Persisting a new status for the post with the given id. -/
def setStatus (posts : List Post) (pid : Nat) (st : String) : List Post :=
  posts.map (fun p => if p.id == pid then { p with status := st } else p)

/-! ## Orchestrator (`services/publisher_manager.py`) -/

/-- Lower-casing of a platform name, `platform_raw.lower()` (character-wise
ASCII lower-casing of the string). -/
def strLower (s : String) : String := ⟨s.data.map Char.toLower⟩

/-- Observable side effects performed by one run of the orchestrator. -/
inductive Event where
  /-- `download_video(post.video_file_id, local_video_path)` -/
  | blobFetch (key : String)
  /-- credential-store read for `(client_id, lookup_platform)` -/
  | credRead (cid : Nat) (platform : String)
  /-- invocation of a platform driver -/
  | driverCall (platform : String)
  /-- committed write of the post status -/
  | statusWrite (pid : Nat) (st : String)
  /-- `os.remove(local_video_path)` -/
  | fileDelete (path : String)
deriving Repr, DecidableEq

/-- Result of one driver invocation, as seen by the orchestrator:
the driver returns `True`, returns `False`, or raises (the raise is caught
by the per-platform `except` and treated as failure). -/
inductive DriverOutcome where
  | ok
  | fail
  | err
deriving Repr, DecidableEq

/-- Environment of one orchestrator run: the outcomes of the external calls.
`credRaise i` says whether the credential DB query of loop iteration `i`
raises (such an exception escapes the per-platform handler and is caught
only at top level); `commitRaises` says whether `db.commit()` raises. -/
structure OrchEnv where
  downloadOk : Bool
  partialFile : Bool
  credRaise : Nat → Bool
  commitRaises : Bool
  driverOutcome : Nat → DriverOutcome

/-- `linked_page_id` computation of `process_single_post` (lines 108-115):
the `page_id` of the first entry of `available_accounts` whose `ig_id`
equals the active `instagram_account_id`; `none` when no entry matches. -/
def findLinkedPage (accounts : List MetaAccount) (active : Option String) :
    Option (Option String) :=
  match accounts with
  | [] => none
  | a :: rest => if a.ig_id == active then some a.page_id else findLinkedPage rest active

/-- The `linked_page_id` value (flattened): absent both when no account
matches and when the matching account has no `page_id`. -/
def fbLinkedPage (c : SocialCredential) : Option String :=
  Option.join (findLinkedPage c.token_data.available_accounts c.token_data.instagram_account_id)

/-- `lookup_platform = 'instagram' if platform in ['instagram', 'facebook'] else platform`
(line 59): Meta platforms share the credentials stored under the
`instagram` key. -/
def lookupPlatform (platform : String) : String :=
  if platform == "instagram" || platform == "facebook" then "instagram" else platform

/-- Body of the per-platform `try` block: dispatch on the normalized platform
name, returning `platform_success` and the driver calls made.  `platform`
is already lower-cased; `i` is the loop iteration index used to select the
driver outcome from the environment. -/
def runPlatform (env : OrchEnv) (platform : String) (c : SocialCredential) (i : Nat) :
    Bool × List Event :=
  if platform == "youtube" then
    (env.driverOutcome i == .ok, [.driverCall "youtube"])
  else if platform == "tiktok" then
    (env.driverOutcome i == .ok, [.driverCall "tiktok"])
  else if platform == "instagram" then
    (env.driverOutcome i == .ok, [.driverCall "instagram"])
  else if platform == "facebook" then
    if optTruthy (fbLinkedPage c) then
      (env.driverOutcome i == .ok, [.driverCall "facebook"])
    else
      (false, [])
  else
    (false, [])

/-- Prefixing the events of one loop iteration onto the result of the rest
of the loop, preserving whether the loop finished or raised. -/
def prependEvents (pre : List Event) :
    Except (List Event) (Bool × List Event) → Except (List Event) (Bool × List Event)
  | .error es => .error (pre ++ es)
  | .ok (b, es) => .ok (b, pre ++ es)

/-- The platform loop of `process_single_post` (lines 53-134).  `acc` is the
running `overall_success` flag; the result is `Except.error` when a
credential query raises (the exception escapes to the top-level handler),
carrying the events already performed. -/
def platformLoop (env : OrchEnv) (cid : Nat) (credDb : List SocialCredential) :
    Nat → Bool → List String → Except (List Event) (Bool × List Event)
  | _, acc, [] => .ok (acc, [])
  | i, acc, p :: rest =>
    let platform := strLower p
    let lookupKey := lookupPlatform platform
    if env.credRaise i then .error []
    else
      match lookupCred credDb cid lookupKey with
      | none =>
        prependEvents [Event.credRead cid lookupKey]
          (platformLoop env cid credDb (i+1) false rest)
      | some c =>
        let r := runPlatform env platform c i
        let acc2 := if r.1 then acc else false
        prependEvents (Event.credRead cid lookupKey :: r.2)
          (platformLoop env cid credDb (i+1) acc2 rest)

/-- Persistent state touched by the orchestrator: the `scheduled_posts` and
`social_credentials` tables and the set of existing local file paths. -/
structure Sys where
  posts : List Post
  creds : List SocialCredential
  fs : List String
deriving Repr, DecidableEq

/-- `local_video_path = os.path.join("temp_media", f"video_job_{post.id}.mp4")`. -/
def localPath (pid : Nat) : String := "temp_media/video_job_" ++ toString pid ++ ".mp4"

/-- The `finally` clean-up (lines 147-149): delete the local file if present. -/
def cleanupFs (fs : List String) (path : String) : List String × List Event :=
  if path ∈ fs then (fs.filter (fun q => q != path), [.fileDelete path]) else (fs, [])

/-- Shallow embedding of `process_single_post` (lines 20-150).  Returns the
persistent state after the call together with the trace of observable
effects.  Paths: missing / non-pending post returns immediately (no
clean-up, `local_video_path` is still `None`); download failure marks the
post failed and skips platform work; the platform loop aggregates
per-platform outcomes; a raising credential query or a raising commit is
caught by the top-level handler, which rolls the transaction back (no
status is persisted); the `finally` clean-up runs on every non-early-return
path. -/
def process_single_post (env : OrchEnv) (post_id : Nat) (sys : Sys) : Sys × List Event :=
  match lookupPost sys.posts post_id with
  | none => (sys, [])
  | some post =>
    if post.status != "pending" then (sys, [])
    else
      let path := localPath post.id
      if env.downloadOk then
        let fs1 := path :: sys.fs
        match platformLoop env post.client_id sys.creds 0 true post.platforms with
        | .error evs =>
          let c := cleanupFs fs1 path
          ({ sys with fs := c.1 }, Event.blobFetch post.video_file_id :: (evs ++ c.2))
        | .ok (success, evs) =>
          let newStatus := if success then "completed" else "failed"
          if env.commitRaises then
            let c := cleanupFs fs1 path
            ({ sys with fs := c.1 }, Event.blobFetch post.video_file_id :: (evs ++ c.2))
          else
            let c := cleanupFs fs1 path
            ({ sys with posts := setStatus sys.posts post.id newStatus, fs := c.1 },
              Event.blobFetch post.video_file_id ::
                (evs ++ Event.statusWrite post.id newStatus :: c.2))
      else
        let fs1 := if env.partialFile then path :: sys.fs else sys.fs
        if env.commitRaises then
          let c := cleanupFs fs1 path
          ({ sys with fs := c.1 }, Event.blobFetch post.video_file_id :: c.2)
        else
          let c := cleanupFs fs1 path
          ({ sys with posts := setStatus sys.posts post.id "failed", fs := c.1 },
            Event.blobFetch post.video_file_id :: Event.statusWrite post.id "failed" :: c.2)

/-- Status of the post with the given id in a system state. -/
def statusOf (sys : Sys) (pid : Nat) : Option String :=
  (lookupPost sys.posts pid).map Post.status

/-- Per-entry success of the platform loop: what `platform_success`
aggregation contributes for the entry at loop index `i` with raw name `p`. -/
def entryOk (env : OrchEnv) (cid : Nat) (credDb : List SocialCredential)
    (i : Nat) (p : String) : Bool :=
  match lookupCred credDb cid (lookupPlatform (strLower p)) with
  | none => false
  | some c => (runPlatform env (strLower p) c i).1

/-- Events produced by the loop iteration at index `i` for entry `p`. -/
def entryEvents (env : OrchEnv) (cid : Nat) (credDb : List SocialCredential)
    (i : Nat) (p : String) : List Event :=
  match lookupCred credDb cid (lookupPlatform (strLower p)) with
  | none => [Event.credRead cid (lookupPlatform (strLower p))]
  | some c =>
    Event.credRead cid (lookupPlatform (strLower p)) :: (runPlatform env (strLower p) c i).2

/-- Conjunction of `entryOk` over a platform list starting at index `i`. -/
def allOk (env : OrchEnv) (cid : Nat) (credDb : List SocialCredential) :
    Nat → List String → Bool
  | _, [] => true
  | i, p :: rest => entryOk env cid credDb i p && allOk env cid credDb (i+1) rest

/-- Concatenation of `entryEvents` over a platform list starting at index `i`. -/
def flatEvents (env : OrchEnv) (cid : Nat) (credDb : List SocialCredential) :
    Nat → List String → List Event
  | _, [] => []
  | i, p :: rest => entryEvents env cid credDb i p ++ flatEvents env cid credDb (i+1) rest

/-- Number of credential-store reads in a trace. -/
def credReadCount (evs : List Event) : Nat :=
  evs.countP (fun e => match e with | .credRead _ _ => true | _ => false)

/-- Number of job-status writes in a trace. -/
def statusWriteCount (evs : List Event) : Nat :=
  evs.countP (fun e => match e with | .statusWrite _ _ => true | _ => false)

theorem platformLoop_no_raise (env : OrchEnv) (cid : Nat) (credDb : List SocialCredential)
    (hnr : ∀ j, env.credRaise j = false) :
    ∀ (ps : List String) (i : Nat) (acc : Bool),
      platformLoop env cid credDb i acc ps =
        .ok (acc && allOk env cid credDb i ps, flatEvents env cid credDb i ps) := by
  intro ps
  induction ps with
  | nil => intro i acc; simp [platformLoop, allOk, flatEvents]
  | cons p rest ih =>
    intro i acc
    simp only [platformLoop, allOk, flatEvents, entryOk, entryEvents, hnr i, if_false,
      Bool.false_eq_true]
    cases h : lookupCred credDb cid (lookupPlatform (strLower p)) with
    | none =>
      simp only [ih (i+1) false]
      cases acc <;> simp [prependEvents]
    | some c =>
      simp only [ih (i+1)]
      cases hr : (runPlatform env (strLower p) c i).1 <;>
        cases acc <;> simp [hr, prependEvents]

theorem lookupPost_id {posts : List Post} {pid : Nat} {post : Post}
    (h : lookupPost posts pid = some post) : post.id = pid := by
  have h2 := List.find?_some h
  simpa using h2

theorem lookupPost_cons (q : Post) (rest : List Post) (pid : Nat) :
    lookupPost (q :: rest) pid =
      if q.id == pid then some q else lookupPost rest pid := by
  unfold lookupPost
  cases h : (q.id == pid) <;> simp [List.find?, h]

theorem setStatus_cons (q : Post) (rest : List Post) (pid : Nat) (st : String) :
    setStatus (q :: rest) pid st =
      (if q.id == pid then { q with status := st } else q) :: setStatus rest pid st := rfl

theorem lookupPost_setStatus {posts : List Post} {pid : Nat} {post : Post} (st : String)
    (h : lookupPost posts pid = some post) :
    lookupPost (setStatus posts pid st) pid = some { post with status := st } := by
  induction posts with
  | nil => simp [lookupPost] at h
  | cons q rest ih =>
    rw [lookupPost_cons] at h
    rw [setStatus_cons, lookupPost_cons]
    by_cases hq : q.id = pid
    · have hb : (q.id == pid) = true := by simpa using hq
      rw [hb] at h
      simp only [if_true] at h
      injection h with h
      subst h
      simp [hb]
    · have hb : (q.id == pid) = false := by simpa using hq
      rw [hb] at h
      simp only [Bool.false_eq_true, if_false] at h
      simp only [hb, Bool.false_eq_true, if_false]
      exact ih h

theorem cleanupFs_not_mem (fs : List String) (path : String) :
    path ∉ (cleanupFs fs path).1 := by
  unfold cleanupFs
  split
  · intro hmem
    have := List.of_mem_filter hmem
    simp at this
  · intro hmem
    simp_all

theorem runPlatform_snd (env : OrchEnv) (pl : String) (c : SocialCredential) (i : Nat) :
    (runPlatform env pl c i).2 = [] ∨ ∃ s, (runPlatform env pl c i).2 = [Event.driverCall s] := by
  unfold runPlatform
  repeat' split
  all_goals simp

theorem credReadCount_entry (env : OrchEnv) (cid : Nat) (credDb : List SocialCredential)
    (i : Nat) (p : String) : credReadCount (entryEvents env cid credDb i p) = 1 := by
  unfold entryEvents
  cases h : lookupCred credDb cid (lookupPlatform (strLower p)) with
  | none => rfl
  | some c =>
    rcases runPlatform_snd env (strLower p) c i with h2 | ⟨s, h2⟩ <;>
      simp [h2, credReadCount]

theorem credReadCount_flat (env : OrchEnv) (cid : Nat) (credDb : List SocialCredential) :
    ∀ (ps : List String) (i : Nat),
      credReadCount (flatEvents env cid credDb i ps) = ps.length := by
  intro ps
  induction ps with
  | nil => intro i; simp [flatEvents, credReadCount]
  | cons p rest ih =>
    intro i
    simp only [flatEvents, credReadCount, List.countP_append, List.length_cons]
    have h1 := credReadCount_entry env cid credDb i p
    have h2 := ih (i+1)
    simp only [credReadCount] at h1 h2
    omega

theorem statusWriteCount_entry (env : OrchEnv) (cid : Nat) (credDb : List SocialCredential)
    (i : Nat) (p : String) : statusWriteCount (entryEvents env cid credDb i p) = 0 := by
  unfold entryEvents
  cases h : lookupCred credDb cid (lookupPlatform (strLower p)) with
  | none => rfl
  | some c =>
    rcases runPlatform_snd env (strLower p) c i with h2 | ⟨s, h2⟩ <;>
      simp [h2, statusWriteCount]

theorem statusWriteCount_flat (env : OrchEnv) (cid : Nat) (credDb : List SocialCredential) :
    ∀ (ps : List String) (i : Nat),
      statusWriteCount (flatEvents env cid credDb i ps) = 0 := by
  intro ps
  induction ps with
  | nil => intro i; simp [flatEvents, statusWriteCount]
  | cons p rest ih =>
    intro i
    simp only [flatEvents, statusWriteCount, List.countP_append]
    have h1 := statusWriteCount_entry env cid credDb i p
    have h2 := ih (i+1)
    simp only [statusWriteCount] at h1 h2
    omega

theorem cleanupFs_snd (fs : List String) (path : String) :
    (cleanupFs fs path).2 = [] ∨ (cleanupFs fs path).2 = [Event.fileDelete path] := by
  unfold cleanupFs
  split <;> simp

theorem allOk_iff (env : OrchEnv) (cid : Nat) (credDb : List SocialCredential) :
    ∀ (ps : List String) (i : Nat),
      allOk env cid credDb i ps = true ↔
        ∀ k (hk : k < ps.length), entryOk env cid credDb (i + k) ps[k] = true := by
  intro ps
  induction ps with
  | nil => intro i; simp [allOk]
  | cons p rest ih =>
    intro i
    simp only [allOk, Bool.and_eq_true, List.length_cons]
    constructor
    · rintro ⟨h1, h2⟩ k hk
      cases k with
      | zero => simpa using h1
      | succ m =>
        have hm := (ih (i+1)).mp h2 m (by omega)
        have : i + 1 + m = i + (m + 1) := by omega
        rw [this] at hm
        simpa using hm
    · intro h
      refine ⟨by simpa using h 0 (by omega), (ih (i+1)).mpr ?_⟩
      intro k hk
      have hm := h (k+1) (by omega)
      have : i + (k + 1) = i + 1 + k := by omega
      rw [this] at hm
      simpa using hm

/-- C5: for a job whose stored status is not exactly `pending` at entry, and
for a job id that resolves to no job, `process_single_post` is a no-op: the
persistent state is unchanged and no effect at all is performed (no blob
fetch, no credential read, no driver call, no status write, no file
delete). -/
theorem c5_non_pending_noop (env : OrchEnv) (pid : Nat) (sys : Sys)
    (h : lookupPost sys.posts pid = none ∨
         ∃ post, lookupPost sys.posts pid = some post ∧ post.status ≠ "pending") :
    process_single_post env pid sys = (sys, []) := by
  unfold process_single_post
  rcases h with h | ⟨post, h, hs⟩
  · simp only [h]
  · simp only [h]
    have hb : (post.status != "pending") = true := by simpa using hs
    rw [hb]
    simp

/-- Witness for C5 at a concrete already-completed job. -/
theorem c5_non_pending_noop_witness :
    process_single_post ⟨true, false, fun _ => false, false, fun _ => .ok⟩ 4
        ⟨[⟨4, 9, "blob4", "t", "d", ["youtube"], "completed"⟩], [], []⟩ =
      (⟨[⟨4, 9, "blob4", "t", "d", ["youtube"], "completed"⟩], [], []⟩, []) :=
  c5_non_pending_noop _ 4 _
    (Or.inr ⟨⟨4, 9, "blob4", "t", "d", ["youtube"], "completed"⟩, by decide, by decide⟩)

theorem process_removes_local_file (env : OrchEnv) (pid : Nat) (sys : Sys) (post : Post)
    (hfind : lookupPost sys.posts pid = some post)
    (hpend : post.status = "pending") :
    localPath pid ∉ (process_single_post env pid sys).1.fs := by
  have hid : post.id = pid := lookupPost_id hfind
  subst hid
  unfold process_single_post
  simp only [hfind, hpend]
  have hb : (("pending" : String) != "pending") = false := by decide
  rw [hb]
  simp only [Bool.false_eq_true, if_false]
  cases hdl : env.downloadOk with
  | false =>
    cases hcr : env.commitRaises <;>
      simp only [Bool.false_eq_true, if_false, if_true] <;>
      exact cleanupFs_not_mem _ _
  | true =>
    cases hpl : platformLoop env post.client_id sys.creds 0 true post.platforms with
    | error evs => exact cleanupFs_not_mem _ _
    | ok r =>
      cases hcr : env.commitRaises <;>
        simp only [Bool.false_eq_true, if_false, if_true] <;>
        exact cleanupFs_not_mem _ _

/-- C6: for every invocation on a pending job — whatever the download
outcome, the per-platform outcomes, and whether a credential query or a
commit raises — when `process_single_post` returns, the job-scoped local
media file does not exist. -/
theorem c6_no_temp_file_after_process (env : OrchEnv) (pid : Nat) (sys : Sys) (post : Post)
    (hfind : lookupPost sys.posts pid = some post)
    (hpend : post.status = "pending") :
    localPath pid ∉ (process_single_post env pid sys).1.fs :=
  process_removes_local_file env pid sys post hfind hpend

/-- Witness for C6 at a concrete pending job whose platform driver succeeds. -/
theorem c6_no_temp_file_witness :
    localPath 2 ∉
      (process_single_post ⟨true, false, fun _ => false, false, fun _ => .ok⟩ 2
        ⟨[⟨2, 9, "blob2", "t", "d", ["youtube"], "pending"⟩],
         [⟨9, "youtube", ⟨some "tok", none, none, []⟩⟩], []⟩).1.fs :=
  c6_no_temp_file_after_process _ 2 _ ⟨2, 9, "blob2", "t", "d", ["youtube"], "pending"⟩
    (by decide) (by decide)

theorem process_ok_path (env : OrchEnv) (pid : Nat) (sys : Sys) (post : Post)
    (hfind : lookupPost sys.posts pid = some post)
    (hpend : post.status = "pending")
    (hdl : env.downloadOk = true)
    (hnr : ∀ j, env.credRaise j = false)
    (hnc : env.commitRaises = false) :
    process_single_post env pid sys =
      ({ sys with
          posts := setStatus sys.posts post.id
            (if allOk env post.client_id sys.creds 0 post.platforms then "completed"
             else "failed"),
          fs := (cleanupFs (localPath post.id :: sys.fs) (localPath post.id)).1 },
        Event.blobFetch post.video_file_id ::
          (flatEvents env post.client_id sys.creds 0 post.platforms ++
            Event.statusWrite post.id
              (if allOk env post.client_id sys.creds 0 post.platforms then "completed"
               else "failed") ::
              (cleanupFs (localPath post.id :: sys.fs) (localPath post.id)).2)) := by
  unfold process_single_post
  simp only [hfind, hpend, hdl]
  have hb : (("pending" : String) != "pending") = false := by decide
  rw [hb]
  simp only [Bool.false_eq_true, if_false, if_true]
  rw [platformLoop_no_raise env post.client_id sys.creds hnr post.platforms 0 true]
  simp only [Bool.true_and, hnc, Bool.false_eq_true, if_false]

/-- C1: for a pending job whose media download succeeds (and no unexpected
top-level exception occurs), the final persisted status is `completed` iff
every entry of the platform list — unknown names included — reported
success, and `failed` iff some entry did not; a failing entry never
prevents the remaining entries from being attempted (one credential read is
performed for every entry of the list). -/
theorem c1_completed_iff_all_platforms (env : OrchEnv) (pid : Nat) (sys : Sys) (post : Post)
    (hfind : lookupPost sys.posts pid = some post)
    (hpend : post.status = "pending")
    (hdl : env.downloadOk = true)
    (hnr : ∀ j, env.credRaise j = false)
    (hnc : env.commitRaises = false) :
    (statusOf (process_single_post env pid sys).1 pid = some "completed" ↔
        ∀ k (hk : k < post.platforms.length),
          entryOk env post.client_id sys.creds k post.platforms[k] = true) ∧
    (statusOf (process_single_post env pid sys).1 pid = some "failed" ↔
        ¬ ∀ k (hk : k < post.platforms.length),
          entryOk env post.client_id sys.creds k post.platforms[k] = true) ∧
    credReadCount (process_single_post env pid sys).2 = post.platforms.length := by
  have hid := lookupPost_id hfind
  subst hid
  rw [process_ok_path env _ sys post hfind hpend hdl hnr hnc]
  have hstat : ∀ st : String,
      statusOf { sys with
        posts := setStatus sys.posts post.id st,
        fs := (cleanupFs (localPath post.id :: sys.fs) (localPath post.id)).1 } post.id =
        some st := by
    intro st
    simp [statusOf, lookupPost_setStatus st hfind]
  have hcount :
      credReadCount
        (Event.blobFetch post.video_file_id ::
          (flatEvents env post.client_id sys.creds 0 post.platforms ++
            Event.statusWrite post.id
              (if allOk env post.client_id sys.creds 0 post.platforms then "completed"
               else "failed") ::
              (cleanupFs (localPath post.id :: sys.fs) (localPath post.id)).2)) =
        post.platforms.length := by
    rcases cleanupFs_snd (localPath post.id :: sys.fs) (localPath post.id) with hc | hc <;>
      · rw [hc]
        have := credReadCount_flat env post.client_id sys.creds post.platforms 0
        simp only [credReadCount, List.countP_cons, List.countP_append,
          List.countP_nil, Bool.false_eq_true, if_false, if_true] at this ⊢
        omega
  have hiff := allOk_iff env post.client_id sys.creds post.platforms 0
  simp only [Nat.zero_add] at hiff
  cases hall : allOk env post.client_id sys.creds 0 post.platforms with
  | true =>
    simp only [hall, if_true] at hcount ⊢
    refine ⟨?_, ?_, hcount⟩
    · simp only [hstat "completed"]
      simpa using (hiff.mp hall)
    · simp only [hstat "completed"]
      constructor
      · intro hfalse; exact absurd hfalse (by decide)
      · intro hcontra; exact absurd (hiff.mp hall) hcontra
  | false =>
    simp only [hall, Bool.false_eq_true, if_false] at hcount ⊢
    refine ⟨?_, ?_, hcount⟩
    · simp only [hstat "failed"]
      constructor
      · intro hfalse; exact absurd hfalse (by decide)
      · intro hforall
        exact absurd (hiff.mpr hforall) (by simp [hall])
    · simp only [hstat "failed"]
      constructor
      · intro _ hforall
        exact absurd (hiff.mpr hforall) (by simp [hall])
      · intro _; trivial

/-- Witness for C1: a concrete two-platform job (one succeeding, one with an
unknown name), where the final status is `failed`. -/
theorem c1_completed_iff_all_platforms_witness :
    (statusOf
        (process_single_post ⟨true, false, fun _ => false, false, fun _ => .ok⟩ 3
          ⟨[⟨3, 9, "blob3", "t", "d", ["youtube", "twitter"], "pending"⟩],
           [⟨9, "youtube", ⟨some "tok", none, none, []⟩⟩], []⟩).1 3 = some "completed" ↔
      ∀ k (hk : k < (["youtube", "twitter"] : List String).length),
        entryOk ⟨true, false, fun _ => false, false, fun _ => .ok⟩ 9
          [⟨9, "youtube", ⟨some "tok", none, none, []⟩⟩] k
          (["youtube", "twitter"] : List String)[k] = true) ∧
    ((statusOf
        (process_single_post ⟨true, false, fun _ => false, false, fun _ => .ok⟩ 3
          ⟨[⟨3, 9, "blob3", "t", "d", ["youtube", "twitter"], "pending"⟩],
           [⟨9, "youtube", ⟨some "tok", none, none, []⟩⟩], []⟩).1 3 = some "failed" ↔
      ¬ ∀ k (hk : k < (["youtube", "twitter"] : List String).length),
        entryOk ⟨true, false, fun _ => false, false, fun _ => .ok⟩ 9
          [⟨9, "youtube", ⟨some "tok", none, none, []⟩⟩] k
          (["youtube", "twitter"] : List String)[k] = true)) ∧
    credReadCount
      (process_single_post ⟨true, false, fun _ => false, false, fun _ => .ok⟩ 3
        ⟨[⟨3, 9, "blob3", "t", "d", ["youtube", "twitter"], "pending"⟩],
         [⟨9, "youtube", ⟨some "tok", none, none, []⟩⟩], []⟩).2 = 2 :=
  c1_completed_iff_all_platforms ⟨true, false, fun _ => false, false, fun _ => .ok⟩ 3
    ⟨[⟨3, 9, "blob3", "t", "d", ["youtube", "twitter"], "pending"⟩],
     [⟨9, "youtube", ⟨some "tok", none, none, []⟩⟩], []⟩
    ⟨3, 9, "blob3", "t", "d", ["youtube", "twitter"], "pending"⟩
    (by decide) (by decide) rfl (fun _ => rfl) rfl

/-- The platform names the dispatch chain of the orchestrator recognizes. -/
def knownPlatforms : List String := ["youtube", "tiktok", "instagram", "facebook"]

theorem runPlatform_unknown (env : OrchEnv) (pl : String) (c : SocialCredential) (i : Nat)
    (h : pl ∉ knownPlatforms) : runPlatform env pl c i = (false, []) := by
  simp only [knownPlatforms, List.mem_cons, List.mem_singleton, not_or] at h
  obtain ⟨h1, h2, h3, h4⟩ := h
  unfold runPlatform
  simp [h1, h2, h3, h4]

theorem entryOk_unknown (env : OrchEnv) (cid : Nat) (credDb : List SocialCredential)
    (i : Nat) (p : String) (h : strLower p ∉ knownPlatforms) :
    entryOk env cid credDb i p = false := by
  unfold entryOk
  cases hl : lookupCred credDb cid (lookupPlatform (strLower p)) with
  | none => rfl
  | some c => simp [runPlatform_unknown env (strLower p) c i h]

theorem allOk_unknown (env : OrchEnv) (cid : Nat) (credDb : List SocialCredential)
    (ps : List String) (i : Nat) (hne : ps ≠ [])
    (h : ∀ p ∈ ps, strLower p ∉ knownPlatforms) :
    allOk env cid credDb i ps = false := by
  cases ps with
  | nil => exact absurd rfl hne
  | cons p rest =>
    simp only [allOk]
    rw [entryOk_unknown env cid credDb i p (h p (by simp))]
    rfl

theorem cleanupFs_mem (fs : List String) (path : String) (h : path ∈ fs) :
    (cleanupFs fs path).2 = [Event.fileDelete path] := by
  unfold cleanupFs
  rw [if_pos h]

theorem credReadCount_full (env : OrchEnv) (cid : Nat) (credDb : List SocialCredential)
    (ps : List String) (key : String) (pid2 : Nat) (st : String)
    (fs0 : List String) (path : String) :
    credReadCount
      (Event.blobFetch key ::
        (flatEvents env cid credDb 0 ps ++
          Event.statusWrite pid2 st :: (cleanupFs fs0 path).2)) = ps.length := by
  rcases cleanupFs_snd fs0 path with hc | hc <;>
    · rw [hc]
      have := credReadCount_flat env cid credDb ps 0
      simp only [credReadCount, List.countP_cons, List.countP_append,
        List.countP_nil, Bool.false_eq_true, if_false, if_true] at this ⊢
      omega

/-- Counterexample to C3 as stated: a pending job with an empty platform
list finishes with status `completed` (the success condition is vacuously
true), not `failed`. -/
theorem c3_empty_platforms_counterexample :
    statusOf
        (process_single_post ⟨true, false, fun _ => false, false, fun _ => .ok⟩ 1
          ⟨[⟨1, 9, "blob1", "t", "d", [], "pending"⟩], [], []⟩).1 1 = some "completed" ∧
    statusOf
        (process_single_post ⟨true, false, fun _ => false, false, fun _ => .ok⟩ 1
          ⟨[⟨1, 9, "blob1", "t", "d", [], "pending"⟩], [], []⟩).1 1 ≠ some "failed" := by
  constructor
  · rfl
  · decide

/-- C3 (amended): a pending job with an empty platform list ends
`completed` (vacuous success); a pending job with a non-empty platform list
all of whose entries are unknown names ends `failed`; in both cases the
iteration completes (one credential read per entry) and the clean-up still
runs (the local file is deleted and absent afterwards). -/
theorem c3_unknown_platforms_failed (env : OrchEnv) (pid : Nat) (sys : Sys) (post : Post)
    (hfind : lookupPost sys.posts pid = some post)
    (hpend : post.status = "pending")
    (hdl : env.downloadOk = true)
    (hnr : ∀ j, env.credRaise j = false)
    (hnc : env.commitRaises = false) :
    (post.platforms = [] →
      statusOf (process_single_post env pid sys).1 pid = some "completed") ∧
    (post.platforms ≠ [] →
      (∀ p ∈ post.platforms, strLower p ∉ knownPlatforms) →
      statusOf (process_single_post env pid sys).1 pid = some "failed") ∧
    credReadCount (process_single_post env pid sys).2 = post.platforms.length ∧
    Event.fileDelete (localPath pid) ∈ (process_single_post env pid sys).2 ∧
    localPath pid ∉ (process_single_post env pid sys).1.fs := by
  have hid := lookupPost_id hfind
  subst hid
  have hnotmem := process_removes_local_file env post.id sys post hfind hpend
  rw [process_ok_path env _ sys post hfind hpend hdl hnr hnc] at hnotmem ⊢
  refine ⟨?_, ?_, credReadCount_full _ _ _ _ _ _ _ _ _, ?_, hnotmem⟩
  · intro hpe
    rw [hpe]
    have hall : allOk env post.client_id sys.creds 0 [] = true := rfl
    rw [hall]
    simp only [if_true]
    simp [statusOf, lookupPost_setStatus "completed" hfind]
  · intro hne hunk
    rw [allOk_unknown env post.client_id sys.creds post.platforms 0 hne hunk]
    simp only [Bool.false_eq_true, if_false]
    simp [statusOf, lookupPost_setStatus "failed" hfind]
  · rw [cleanupFs_mem (localPath post.id :: sys.fs) (localPath post.id) (by simp)]
    simp

/-- Witness for C3 at a concrete pending job whose only platform entry is an
unrecognized name. -/
theorem c3_unknown_platforms_failed_witness :
    ((["myspace"] : List String) = [] →
      statusOf
        (process_single_post ⟨true, false, fun _ => false, false, fun _ => .ok⟩ 6
          ⟨[⟨6, 9, "blob6", "t", "d", ["myspace"], "pending"⟩], [], []⟩).1 6 =
        some "completed") ∧
    ((["myspace"] : List String) ≠ [] →
      (∀ p ∈ (["myspace"] : List String), strLower p ∉ knownPlatforms) →
      statusOf
        (process_single_post ⟨true, false, fun _ => false, false, fun _ => .ok⟩ 6
          ⟨[⟨6, 9, "blob6", "t", "d", ["myspace"], "pending"⟩], [], []⟩).1 6 =
        some "failed") ∧
    credReadCount
      (process_single_post ⟨true, false, fun _ => false, false, fun _ => .ok⟩ 6
        ⟨[⟨6, 9, "blob6", "t", "d", ["myspace"], "pending"⟩], [], []⟩).2 =
      (["myspace"] : List String).length ∧
    Event.fileDelete (localPath 6) ∈
      (process_single_post ⟨true, false, fun _ => false, false, fun _ => .ok⟩ 6
        ⟨[⟨6, 9, "blob6", "t", "d", ["myspace"], "pending"⟩], [], []⟩).2 ∧
    localPath 6 ∉
      (process_single_post ⟨true, false, fun _ => false, false, fun _ => .ok⟩ 6
        ⟨[⟨6, 9, "blob6", "t", "d", ["myspace"], "pending"⟩], [], []⟩).1.fs :=
  c3_unknown_platforms_failed ⟨true, false, fun _ => false, false, fun _ => .ok⟩ 6
    ⟨[⟨6, 9, "blob6", "t", "d", ["myspace"], "pending"⟩], [], []⟩
    ⟨6, 9, "blob6", "t", "d", ["myspace"], "pending"⟩
    (by decide) (by decide) rfl (fun _ => rfl) rfl

/-- Projection of the events out of a platform-loop result, whether the
loop finished or was interrupted by a raising credential query. -/
def exceptEvents : Except (List Event) (Bool × List Event) → List Event
  | .error es => es
  | .ok (_, es) => es

theorem exceptEvents_prepend (pre : List Event)
    (x : Except (List Event) (Bool × List Event)) :
    exceptEvents (prependEvents pre x) = pre ++ exceptEvents x := by
  cases x with
  | error es => rfl
  | ok r => obtain ⟨b, es⟩ := r; rfl

theorem statusWriteCount_loop (env : OrchEnv) (cid : Nat) (credDb : List SocialCredential) :
    ∀ (ps : List String) (i : Nat) (acc : Bool),
      statusWriteCount (exceptEvents (platformLoop env cid credDb i acc ps)) = 0 := by
  intro ps
  induction ps with
  | nil => intro i acc; rfl
  | cons p rest ih =>
    intro i acc
    simp only [platformLoop]
    cases hcr : env.credRaise i with
    | true => simp [exceptEvents, statusWriteCount]
    | false =>
      simp only [Bool.false_eq_true, if_false]
      cases hl : lookupCred credDb cid (lookupPlatform (strLower p)) with
      | none =>
        rw [exceptEvents_prepend]
        have hih := ih (i+1) false
        simp only [statusWriteCount, List.countP_append, List.countP_cons, List.countP_nil,
          Bool.false_eq_true, if_false] at hih ⊢
        omega
      | some c =>
        rw [exceptEvents_prepend]
        have hih := ih (i+1) (if (runPlatform env (strLower p) c i).1 then acc else false)
        rcases runPlatform_snd env (strLower p) c i with h2 | ⟨s, h2⟩ <;>
          · simp only [h2, statusWriteCount, List.countP_append, List.countP_cons,
              List.countP_nil, Bool.false_eq_true, if_false] at hih ⊢
            omega

theorem statusWriteCount_cleanup (fs0 : List String) (path : String) :
    statusWriteCount (cleanupFs fs0 path).2 = 0 := by
  rcases cleanupFs_snd fs0 path with hc | hc <;> rw [hc] <;> rfl

/-- Counterexample to C4 as stated: when the final commit raises (an
unexpected exception escaping the orchestration body), the job keeps its
`pending` status and no `failed` status write happens — the transaction is
rolled back — although the clean-up still runs. -/
theorem c4_toplevel_exception_counterexample :
    statusOf
        (process_single_post ⟨true, false, fun _ => false, true, fun _ => .ok⟩ 5
          ⟨[⟨5, 9, "blob5", "t", "d", ["youtube"], "pending"⟩],
           [⟨9, "youtube", ⟨some "tok", none, none, []⟩⟩], []⟩).1 5 = some "pending" ∧
    statusOf
        (process_single_post ⟨true, false, fun _ => false, true, fun _ => .ok⟩ 5
          ⟨[⟨5, 9, "blob5", "t", "d", ["youtube"], "pending"⟩],
           [⟨9, "youtube", ⟨some "tok", none, none, []⟩⟩], []⟩).1 5 ≠ some "failed" ∧
    statusWriteCount
      (process_single_post ⟨true, false, fun _ => false, true, fun _ => .ok⟩ 5
        ⟨[⟨5, 9, "blob5", "t", "d", ["youtube"], "pending"⟩],
         [⟨9, "youtube", ⟨some "tok", none, none, []⟩⟩], []⟩).2 = 0 ∧
    Event.fileDelete (localPath 5) ∈
      (process_single_post ⟨true, false, fun _ => false, true, fun _ => .ok⟩ 5
        ⟨[⟨5, 9, "blob5", "t", "d", ["youtube"], "pending"⟩],
         [⟨9, "youtube", ⟨some "tok", none, none, []⟩⟩], []⟩).2 := by
  decide

/-- C4 (amended): on every non-no-op invocation at most one job-status
write happens; exactly one when no unexpected exception escapes the
orchestration body; when one does escape — a raising commit, or a raising
credential query inside the loop (the loop ends in `Except.error`) — the
clean-up still runs but no status is written: the transaction is rolled
back and the job stays `pending`. -/
theorem c4_status_write_discipline (env : OrchEnv) (pid : Nat) (sys : Sys) (post : Post)
    (hfind : lookupPost sys.posts pid = some post)
    (hpend : post.status = "pending") :
    statusWriteCount (process_single_post env pid sys).2 ≤ 1 ∧
    (env.commitRaises = true →
      statusWriteCount (process_single_post env pid sys).2 = 0 ∧
      statusOf (process_single_post env pid sys).1 pid = some "pending") ∧
    (∀ evs, env.downloadOk = true →
      platformLoop env post.client_id sys.creds 0 true post.platforms =
        Except.error evs →
      statusWriteCount (process_single_post env pid sys).2 = 0 ∧
      statusOf (process_single_post env pid sys).1 pid = some "pending") ∧
    ((∀ j, env.credRaise j = false) → env.commitRaises = false →
      statusWriteCount (process_single_post env pid sys).2 = 1) ∧
    localPath pid ∉ (process_single_post env pid sys).1.fs := by
  have hid := lookupPost_id hfind
  subst hid
  have hb : (("pending" : String) != "pending") = false := by decide
  have hloop := statusWriteCount_loop env post.client_id sys.creds post.platforms 0 true
  refine ⟨?_, ?_, ?_, ?_, process_removes_local_file env post.id sys post hfind hpend⟩
  · unfold process_single_post
    simp only [hfind, hpend, hb, Bool.false_eq_true, if_false]
    cases hdl : env.downloadOk with
    | false =>
      cases hcr : env.commitRaises <;>
        simp only [Bool.false_eq_true, if_false, if_true] <;>
        · have := statusWriteCount_cleanup
            (if env.partialFile then localPath post.id :: sys.fs else sys.fs) (localPath post.id)
          simp only [statusWriteCount, List.countP_cons, Bool.false_eq_true, if_false,
            if_true] at this ⊢
          omega
    | true =>
      simp only [eq_self_iff_true, if_true]
      cases hpl : platformLoop env post.client_id sys.creds 0 true post.platforms with
      | error evs =>
        rw [hpl] at hloop
        simp only [exceptEvents] at hloop
        have hcl := statusWriteCount_cleanup (localPath post.id :: sys.fs) (localPath post.id)
        simp only [statusWriteCount, List.countP_cons, List.countP_append,
          Bool.false_eq_true, if_false] at hloop hcl ⊢
        omega
      | ok r =>
        obtain ⟨success, evs⟩ := r
        rw [hpl] at hloop
        simp only [exceptEvents] at hloop
        have hcl := statusWriteCount_cleanup (localPath post.id :: sys.fs) (localPath post.id)
        cases hcr : env.commitRaises <;>
          simp only [Bool.false_eq_true, if_false, if_true] <;>
          · simp only [statusWriteCount, List.countP_cons, List.countP_append,
              Bool.false_eq_true, if_false, if_true] at hloop hcl ⊢
            omega
  · intro hcr
    unfold process_single_post
    simp only [hfind, hpend, hb, Bool.false_eq_true, if_false, hcr, if_true]
    cases hdl : env.downloadOk with
    | false =>
      constructor
      · have := statusWriteCount_cleanup
          (if env.partialFile then localPath post.id :: sys.fs else sys.fs) (localPath post.id)
        simp only [statusWriteCount, List.countP_cons, Bool.false_eq_true, if_false] at this ⊢
        omega
      · simp [statusOf, hfind, hpend]
    | true =>
      simp only [eq_self_iff_true, if_true]
      cases hpl : platformLoop env post.client_id sys.creds 0 true post.platforms with
      | error evs =>
        rw [hpl] at hloop
        simp only [exceptEvents] at hloop
        constructor
        · have hcl := statusWriteCount_cleanup (localPath post.id :: sys.fs) (localPath post.id)
          simp only [statusWriteCount, List.countP_cons, List.countP_append,
            Bool.false_eq_true, if_false] at hloop hcl ⊢
          omega
        · simp [statusOf, hfind, hpend]
      | ok r =>
        obtain ⟨success, evs⟩ := r
        rw [hpl] at hloop
        simp only [exceptEvents] at hloop
        constructor
        · have hcl := statusWriteCount_cleanup (localPath post.id :: sys.fs) (localPath post.id)
          simp only [statusWriteCount, List.countP_cons, List.countP_append,
            Bool.false_eq_true, if_false] at hloop hcl ⊢
          omega
        · simp [statusOf, hfind, hpend]
  · intro evs hdl hpl
    rw [hpl] at hloop
    simp only [exceptEvents] at hloop
    unfold process_single_post
    simp only [hfind, hpend, hb, Bool.false_eq_true, if_false, hdl, if_true, hpl]
    constructor
    · have hcl := statusWriteCount_cleanup (localPath post.id :: sys.fs) (localPath post.id)
      simp only [statusWriteCount, List.countP_cons, List.countP_append,
        Bool.false_eq_true, if_false] at hloop hcl ⊢
      omega
    · simp [statusOf, hfind, hpend]
  · intro hnr hnc
    cases hdl : env.downloadOk with
    | true =>
      rw [process_ok_path env _ sys post hfind hpend hdl hnr hnc]
      have hcl := statusWriteCount_cleanup (localPath post.id :: sys.fs) (localPath post.id)
      have hfl := statusWriteCount_flat env post.client_id sys.creds post.platforms 0
      simp only [statusWriteCount, List.countP_cons, List.countP_append,
        Bool.false_eq_true, if_false, if_true] at hcl hfl ⊢
      omega
    | false =>
      unfold process_single_post
      simp only [hfind, hpend, hb, Bool.false_eq_true, if_false, hdl, hnc, if_true]
      have hcl := statusWriteCount_cleanup
        (if env.partialFile then localPath post.id :: sys.fs else sys.fs) (localPath post.id)
      simp only [statusWriteCount, List.countP_cons, Bool.false_eq_true, if_false,
        if_true] at hcl ⊢
      omega

/-- Witness for C4 at a concrete pending job processed without any
exception: exactly one status write happens. -/
theorem c4_status_write_discipline_witness :
    statusWriteCount
        (process_single_post ⟨true, false, fun _ => false, false, fun _ => .ok⟩ 7
          ⟨[⟨7, 9, "blob7", "t", "d", ["youtube"], "pending"⟩],
           [⟨9, "youtube", ⟨some "tok", none, none, []⟩⟩], []⟩).2 ≤ 1 ∧
    ((⟨true, false, fun _ => false, false, fun _ => .ok⟩ : OrchEnv).commitRaises = true →
      statusWriteCount
        (process_single_post ⟨true, false, fun _ => false, false, fun _ => .ok⟩ 7
          ⟨[⟨7, 9, "blob7", "t", "d", ["youtube"], "pending"⟩],
           [⟨9, "youtube", ⟨some "tok", none, none, []⟩⟩], []⟩).2 = 0 ∧
      statusOf
        (process_single_post ⟨true, false, fun _ => false, false, fun _ => .ok⟩ 7
          ⟨[⟨7, 9, "blob7", "t", "d", ["youtube"], "pending"⟩],
           [⟨9, "youtube", ⟨some "tok", none, none, []⟩⟩], []⟩).1 7 = some "pending") ∧
    (∀ evs, (⟨true, false, fun _ => false, false, fun _ => .ok⟩ : OrchEnv).downloadOk = true →
      platformLoop ⟨true, false, fun _ => false, false, fun _ => .ok⟩ 9
        [⟨9, "youtube", ⟨some "tok", none, none, []⟩⟩] 0 true ["youtube"] =
        Except.error evs →
      statusWriteCount
        (process_single_post ⟨true, false, fun _ => false, false, fun _ => .ok⟩ 7
          ⟨[⟨7, 9, "blob7", "t", "d", ["youtube"], "pending"⟩],
           [⟨9, "youtube", ⟨some "tok", none, none, []⟩⟩], []⟩).2 = 0 ∧
      statusOf
        (process_single_post ⟨true, false, fun _ => false, false, fun _ => .ok⟩ 7
          ⟨[⟨7, 9, "blob7", "t", "d", ["youtube"], "pending"⟩],
           [⟨9, "youtube", ⟨some "tok", none, none, []⟩⟩], []⟩).1 7 = some "pending") ∧
    ((∀ j, (⟨true, false, fun _ => false, false, fun _ => .ok⟩ : OrchEnv).credRaise j = false) →
      (⟨true, false, fun _ => false, false, fun _ => .ok⟩ : OrchEnv).commitRaises = false →
      statusWriteCount
        (process_single_post ⟨true, false, fun _ => false, false, fun _ => .ok⟩ 7
          ⟨[⟨7, 9, "blob7", "t", "d", ["youtube"], "pending"⟩],
           [⟨9, "youtube", ⟨some "tok", none, none, []⟩⟩], []⟩).2 = 1) ∧
    localPath 7 ∉
      (process_single_post ⟨true, false, fun _ => false, false, fun _ => .ok⟩ 7
        ⟨[⟨7, 9, "blob7", "t", "d", ["youtube"], "pending"⟩],
         [⟨9, "youtube", ⟨some "tok", none, none, []⟩⟩], []⟩).1.fs :=
  c4_status_write_discipline ⟨true, false, fun _ => false, false, fun _ => .ok⟩ 7
    ⟨[⟨7, 9, "blob7", "t", "d", ["youtube"], "pending"⟩],
     [⟨9, "youtube", ⟨some "tok", none, none, []⟩⟩], []⟩
    ⟨7, 9, "blob7", "t", "d", ["youtube"], "pending"⟩ (by decide) (by decide)

theorem findLinkedPage_none (accounts : List MetaAccount) (active : Option String)
    (h : ∀ a ∈ accounts, a.ig_id ≠ active) :
    findLinkedPage accounts active = none := by
  induction accounts with
  | nil => rfl
  | cons a rest ih =>
    unfold findLinkedPage
    rw [if_neg]
    · exact ih (fun b hb => h b (by simp [hb]))
    · simpa using h a (by simp)

theorem runPlatform_snd_eq (env : OrchEnv) (pl : String) (c : SocialCredential) (i : Nat) :
    (runPlatform env pl c i).2 = [] ∨ (runPlatform env pl c i).2 = [Event.driverCall pl] := by
  unfold runPlatform
  by_cases h1 : pl = "youtube"
  · simp [h1]
  · by_cases h2 : pl = "tiktok"
    · simp [h1, h2]
    · by_cases h3 : pl = "instagram"
      · simp [h1, h2, h3]
      · by_cases h4 : pl = "facebook"
        · cases h5 : optTruthy (fbLinkedPage c) <;> simp [h1, h2, h3, h4, h5]
        · simp [h1, h2, h3, h4]

theorem runPlatform_fb_nolink (env : OrchEnv) (c : SocialCredential) (i : Nat)
    (hlink : optTruthy (fbLinkedPage c) = false) :
    runPlatform env "facebook" c i = (false, []) := by
  unfold runPlatform
  simp +decide [hlink]

theorem entryOk_fb_nolink (env : OrchEnv) (cid : Nat) (credDb : List SocialCredential)
    (i : Nat) (p : String) (c : SocialCredential) (hp : strLower p = "facebook")
    (hcred : lookupCred credDb cid "instagram" = some c)
    (hlink : optTruthy (fbLinkedPage c) = false) :
    entryOk env cid credDb i p = false := by
  unfold entryOk
  rw [hp]
  have hkey : lookupPlatform "facebook" = "instagram" := by decide
  rw [hkey, hcred]
  simp [runPlatform_fb_nolink env c i hlink]

theorem fb_not_called_entry (env : OrchEnv) (cid : Nat) (credDb : List SocialCredential)
    (i : Nat) (p : String) (c : SocialCredential)
    (hcred : lookupCred credDb cid "instagram" = some c)
    (hlink : optTruthy (fbLinkedPage c) = false) :
    Event.driverCall "facebook" ∉ entryEvents env cid credDb i p := by
  intro h
  unfold entryEvents at h
  rcases hl : lookupCred credDb cid (lookupPlatform (strLower p)) with _ | c2 <;> rw [hl] at h
  · simp +decide at h
  · rcases runPlatform_snd_eq env (strLower p) c2 i with h2 | h2 <;>
      simp only [h2, List.mem_cons, List.mem_singleton, List.not_mem_nil, or_false] at h
    · simp +decide at h
    · rcases h with h | h
    
      · simp +decide at h
      · have hfb : strLower p = "facebook" := by
          have := h
          injection this with hstr
          exact hstr.symm
        rw [hfb] at hl
        have hkey : lookupPlatform "facebook" = "instagram" := by decide
        rw [hkey] at hl
        have hc2 : c2 = c := by rw [hl] at hcred; exact Option.some.inj hcred
        subst hc2
        rw [hfb] at h2
        rw [runPlatform_fb_nolink env c2 i hlink] at h2
        simp at h2

theorem fb_not_called_flat (env : OrchEnv) (cid : Nat) (credDb : List SocialCredential)
    (c : SocialCredential)
    (hcred : lookupCred credDb cid "instagram" = some c)
    (hlink : optTruthy (fbLinkedPage c) = false) :
    ∀ (ps : List String) (i : Nat),
      Event.driverCall "facebook" ∉ flatEvents env cid credDb i ps := by
  intro ps
  induction ps with
  | nil => intro i; simp [flatEvents]
  | cons p rest ih =>
    intro i
    simp only [flatEvents, List.mem_append, not_or]
    exact ⟨fb_not_called_entry env cid credDb i p c hcred hlink, ih (i+1)⟩

/-- C10: for a pending job targeting facebook, when the Meta credential
record has no `available_accounts` entry whose `ig_id` equals the active
`instagram_account_id`, the facebook entry fails, the Facebook driver is
never invoked (no driver call for facebook appears in the trace), the
remaining platforms are still processed (one credential read per entry),
and the job ends `failed`. -/
theorem c10_facebook_no_linked_page (env : OrchEnv) (pid : Nat) (sys : Sys) (post : Post)
    (c : SocialCredential)
    (hfind : lookupPost sys.posts pid = some post)
    (hpend : post.status = "pending")
    (hdl : env.downloadOk = true)
    (hnr : ∀ j, env.credRaise j = false)
    (hnc : env.commitRaises = false)
    (hcred : lookupCred sys.creds post.client_id "instagram" = some c)
    (hnomatch : ∀ a ∈ c.token_data.available_accounts,
        a.ig_id ≠ c.token_data.instagram_account_id)
    (hfb : ∃ p ∈ post.platforms, strLower p = "facebook") :
    statusOf (process_single_post env pid sys).1 pid = some "failed" ∧
    Event.driverCall "facebook" ∉ (process_single_post env pid sys).2 ∧
    credReadCount (process_single_post env pid sys).2 = post.platforms.length := by
  have hid := lookupPost_id hfind
  subst hid
  have hlink : optTruthy (fbLinkedPage c) = false := by
    unfold fbLinkedPage
    rw [findLinkedPage_none _ _ hnomatch]
    rfl
  rw [process_ok_path env _ sys post hfind hpend hdl hnr hnc]
  have hall : allOk env post.client_id sys.creds 0 post.platforms = false := by
    cases hx : allOk env post.client_id sys.creds 0 post.platforms with
    | false => rfl
    | true =>
      obtain ⟨p, hpmem, hp⟩ := hfb
      obtain ⟨k, hk, hpk⟩ := List.mem_iff_getElem.mp hpmem
      have hk2 := (allOk_iff env post.client_id sys.creds post.platforms 0).mp hx k hk
      rw [Nat.zero_add, hpk,
        entryOk_fb_nolink env post.client_id sys.creds k p c hp hcred hlink] at hk2
      exact absurd hk2 (by decide)
  rw [hall]
  simp only [Bool.false_eq_true, if_false]
  refine ⟨by simp [statusOf, lookupPost_setStatus "failed" hfind], ?_,
    credReadCount_full env post.client_id sys.creds post.platforms post.video_file_id
      post.id "failed" (localPath post.id :: sys.fs) (localPath post.id)⟩
  intro h
  simp only [List.mem_cons, List.mem_append] at h
  rcases h with h | h | h | h
  · simp at h
  · exact absurd h (fb_not_called_flat env post.client_id sys.creds c hcred hlink
      post.platforms 0)
  · simp at h
  · rcases cleanupFs_snd (localPath post.id :: sys.fs) (localPath post.id) with hc | hc <;>
      rw [hc] at h <;> simp at h

/-- Witness for C10: a job for facebook and youtube whose Meta record links
no page to the active Instagram account. -/
theorem c10_facebook_no_linked_page_witness :
    statusOf
        (process_single_post ⟨true, false, fun _ => false, false, fun _ => .ok⟩ 8
          ⟨[⟨8, 9, "blob8", "t", "d", ["facebook", "youtube"], "pending"⟩],
           [⟨9, "instagram", ⟨some "tok", none, some "ig1", [⟨some "other", some "pg"⟩]⟩⟩,
            ⟨9, "youtube", ⟨some "tok", none, none, []⟩⟩], []⟩).1 8 = some "failed" ∧
    Event.driverCall "facebook" ∉
      (process_single_post ⟨true, false, fun _ => false, false, fun _ => .ok⟩ 8
        ⟨[⟨8, 9, "blob8", "t", "d", ["facebook", "youtube"], "pending"⟩],
         [⟨9, "instagram", ⟨some "tok", none, some "ig1", [⟨some "other", some "pg"⟩]⟩⟩,
          ⟨9, "youtube", ⟨some "tok", none, none, []⟩⟩], []⟩).2 ∧
    credReadCount
      (process_single_post ⟨true, false, fun _ => false, false, fun _ => .ok⟩ 8
        ⟨[⟨8, 9, "blob8", "t", "d", ["facebook", "youtube"], "pending"⟩],
         [⟨9, "instagram", ⟨some "tok", none, some "ig1", [⟨some "other", some "pg"⟩]⟩⟩,
          ⟨9, "youtube", ⟨some "tok", none, none, []⟩⟩], []⟩).2 =
      (["facebook", "youtube"] : List String).length :=
  c10_facebook_no_linked_page ⟨true, false, fun _ => false, false, fun _ => .ok⟩ 8
    ⟨[⟨8, 9, "blob8", "t", "d", ["facebook", "youtube"], "pending"⟩],
     [⟨9, "instagram", ⟨some "tok", none, some "ig1", [⟨some "other", some "pg"⟩]⟩⟩,
      ⟨9, "youtube", ⟨some "tok", none, none, []⟩⟩], []⟩
    ⟨8, 9, "blob8", "t", "d", ["facebook", "youtube"], "pending"⟩
    ⟨9, "instagram", ⟨some "tok", none, some "ig1", [⟨some "other", some "pg"⟩]⟩⟩
    (by decide) (by decide) rfl (fun _ => rfl) rfl (by decide) (by decide) (by decide)

/-! ## TikTok driver (`publishers/tiktok.py`) -/

/-- `CHUNK_SIZE = 20 * 1024 * 1024` (line 62). -/
def CHUNK_SIZE : Nat := 20 * 1024 * 1024

/-- `total_chunk_count = math.ceil(file_size / CHUNK_SIZE)` (line 63). -/
def totalChunkCount (fileSize : Nat) : Nat := (fileSize + CHUNK_SIZE - 1) / CHUNK_SIZE

/-- The `source_info` object of the init payload. -/
structure SourceInfo where
  video_size : Nat
  chunk_size : Nat
  total_chunk_count : Nat
deriving Repr, DecidableEq

/-- `source_info` of the init payload (lines 82-87): `video_size` is the
file size, `chunk_size` is `CHUNK_SIZE` for a multi-chunk upload and the
whole file size otherwise. -/
def tiktokSourceInfo (fileSize : Nat) : SourceInfo :=
  { video_size := fileSize
    chunk_size := if totalChunkCount fileSize > 1 then CHUNK_SIZE else fileSize
    total_chunk_count := totalChunkCount fileSize }

/-- `start = i * CHUNK_SIZE` (line 118). -/
def chunkStart (i : Nat) : Nat := i * CHUNK_SIZE

/-- `end = min(start + CHUNK_SIZE - 1, file_size - 1)` (line 119). -/
def chunkEnd (fileSize i : Nat) : Nat :=
  min (chunkStart i + CHUNK_SIZE - 1) (fileSize - 1)

/-- The fields of an init-endpoint response that the driver inspects:
whether `res_json` carries an `error` object with code
`access_token_invalid` (line 94), and `res_json["data"]["upload_url"]`
(line 105, absent when the `data` object or the url is missing). -/
structure InitResponse where
  tokenInvalid : Bool
  uploadUrl : Option String
deriving Repr, DecidableEq

/-- Observable effects of one TikTok video upload. -/
inductive TTEvent where
  /-- POST to the init endpoint carrying this bearer token and payload -/
  | initCall (token : String) (info : SourceInfo)
  /-- POST to the oauth token endpoint (refresh-token exchange) -/
  | refreshHttp
  /-- committed replacement of the stored tiktok bundle -/
  | credCommit (cid : Nat) (tok : String)
  /-- chunk PUT with `Content-Range: bytes rangeStart-rangeEnd/total` -/
  | chunkPut (rangeStart : Nat) (rangeEnd : Nat) (total : Nat)
deriving Repr, DecidableEq

/-- Environment of one TikTok upload: remote responses.  `initResp k` is
the response to the k-th init call of this invocation; `refreshNew` is the
new access token when the refresh HTTP call returns 200 with an
`access_token`, `none` when the refresh call fails; `putStatus i` is the
HTTP status of the i-th chunk PUT. -/
structure TTEnv where
  initResp : Nat → InitResponse
  refreshNew : Option String
  putStatus : Nat → Nat

/-- The token bundle written back by a successful refresh
(`cred.token_data = new_data`, line 37): the whole bundle is replaced by
the response JSON; the embedding tracks its new access token. -/
def refreshedBundle (t : String) : TokenData :=
  { access_token := some t, refresh_token := none,
    instagram_account_id := none, available_accounts := [] }

/-- In-place update of the first `(client_id, 'tiktok')` credential row,
`cred.token_data = new_data; db.commit()` (lines 36-38). -/
def updateFirstTiktok : List SocialCredential → Nat → String → List SocialCredential
  | [], _, _ => []
  | c :: rest, cid, t =>
    if c.client_id == cid && c.platform == "tiktok" then
      { c with token_data := refreshedBundle t } :: rest
    else
      c :: updateFirstTiktok rest cid t

/-- Shallow embedding of `refresh_tiktok_token` (lines 13-45): on a
successful refresh HTTP response the new bundle is persisted into the
`(client_id, 'tiktok')` row and returned; when the HTTP call fails, or
the credential row cannot be found to persist into, the result is `none`
and the store is unchanged. -/
def refresh_tiktok_token (refreshNew : Option String) (cid : Nat)
    (credDb : List SocialCredential) :
    Option String × List SocialCredential × List TTEvent :=
  match refreshNew with
  | none => (none, credDb, [.refreshHttp])
  | some t =>
    match lookupCred credDb cid "tiktok" with
    | some _ => (some t, updateFirstTiktok credDb cid t, [.refreshHttp, .credCommit cid t])
    | none => (none, credDb, [.refreshHttp])

/-- `put_response.status_code in [200, 201, 206]` (line 134). -/
def putAccepted (st : Nat) : Bool := st == 200 || st == 201 || st == 206

/-- The chunk-upload loop (lines 115-139): one PUT per chunk index, with
the byte range of lines 118-119 in the Content-Range header; a PUT whose
status is not accepted aborts with failure. -/
def chunkLoop (putStatus : Nat → Nat) (fileSize : Nat) : Nat → Nat → Bool × List TTEvent
  | _, 0 => (true, [])
  | i, fuel + 1 =>
    if putAccepted (putStatus i) then
      let rest := chunkLoop putStatus fileSize (i+1) fuel
      (rest.1, .chunkPut (chunkStart i) (chunkEnd fileSize i) fileSize :: rest.2)
    else
      (false, [.chunkPut (chunkStart i) (chunkEnd fileSize i) fileSize])

/-- The part of `upload_video_to_tiktok` after the (possibly retried) init
response is at hand (lines 105-142): require a truthy `upload_url`, then
stream the chunks. -/
def continueUpload (env : TTEnv) (fileSize : Nat) (credDb : List SocialCredential)
    (r : InitResponse) (evs : List TTEvent) :
    Bool × List SocialCredential × List TTEvent :=
  if optTruthy r.uploadUrl then
    let c := chunkLoop env.putStatus fileSize 0 (totalChunkCount fileSize)
    (c.1, credDb, evs ++ c.2)
  else
    (false, credDb, evs)

/-- Shallow embedding of `upload_video_to_tiktok` (lines 48-146).  Returns
the driver result, the credential store after the call, and the trace of
remote calls and store writes. -/
def upload_video_to_tiktok (env : TTEnv) (fileSize : Nat)
    (accessToken : Option String) (cid : Nat) (credDb : List SocialCredential) :
    Bool × List SocialCredential × List TTEvent :=
  match accessToken with
  | none => (false, credDb, [])
  | some tok0 =>
    if tok0 == "" then (false, credDb, [])
    else
      let info := tiktokSourceInfo fileSize
      let r0 := env.initResp 0
      let ev0 := [TTEvent.initCall tok0 info]
      if r0.tokenInvalid then
        match refresh_tiktok_token env.refreshNew cid credDb with
        | (none, db1, revs) => (false, db1, ev0 ++ revs)
        | (some t, db1, revs) =>
          continueUpload env fileSize db1 (env.initResp 1)
            (ev0 ++ revs ++ [TTEvent.initCall t info])
      else
        continueUpload env fileSize credDb r0 ev0

theorem chunkLoop_all_ok (putStatus : Nat → Nat) (S : Nat) :
    ∀ (fuel i : Nat),
      (∀ j, j < fuel → putAccepted (putStatus (i + j)) = true) →
      chunkLoop putStatus S i fuel =
        (true, (List.range fuel).map
          (fun k => TTEvent.chunkPut (chunkStart (i + k)) (chunkEnd S (i + k)) S)) := by
  intro fuel
  induction fuel with
  | zero => intro i h; rfl
  | succ n ih =>
    intro i h
    have h0 := h 0 (by omega)
    rw [Nat.add_zero] at h0
    have hih := ih (i+1) (fun j hj => by
      have hjj := h (j+1) (by omega)
      rwa [show i + (j + 1) = i + 1 + j by omega] at hjj)
    simp only [chunkLoop, h0, if_true, hih]
    rw [List.range_succ_eq_map]
    simp only [List.map_cons, List.map_map, Nat.add_zero, Prod.mk.injEq, true_and,
      List.cons.injEq, Nat.succ_eq_add_one, Function.comp]
    apply List.map_congr_left
    intro a _
    rw [show i + 1 + a = i + (a + 1) by omega]
    rfl

theorem chunk_partition (S : Nat) :
    ∀ k, k < S →
      k / CHUNK_SIZE < totalChunkCount S ∧
      chunkStart (k / CHUNK_SIZE) ≤ k ∧ k ≤ chunkEnd S (k / CHUNK_SIZE) ∧
      ∀ j, j < totalChunkCount S → chunkStart j ≤ k → k ≤ chunkEnd S j →
        j = k / CHUNK_SIZE := by
  intro k hk
  refine ⟨?_, ?_, ?_, ?_⟩
  · unfold totalChunkCount CHUNK_SIZE
    omega
  · unfold chunkStart CHUNK_SIZE
    omega
  · unfold chunkEnd chunkStart CHUNK_SIZE
    omega
  · intro j hj h1 h2
    unfold totalChunkCount at hj
    unfold chunkStart at h1
    unfold chunkEnd chunkStart at h2
    unfold CHUNK_SIZE at hj h1 h2 ⊢
    omega

theorem totalChunkCount_ceil (S : Nat) :
    S ≤ totalChunkCount S * CHUNK_SIZE ∧
    (S = 0 → totalChunkCount S = 0) ∧
    (0 < S → (totalChunkCount S - 1) * CHUNK_SIZE < S) := by
  unfold totalChunkCount CHUNK_SIZE
  omega

/-- C7: for a TikTok video upload of a file of `S` bytes with 20 MiB
chunks (all accepted), the trace contains exactly `ceil(S / CHUNK_SIZE)`
chunk PUTs, the i-th carrying `Content-Range` offsets
`i*CHUNK_SIZE` to `min(i*CHUNK_SIZE + CHUNK_SIZE - 1, S - 1)` of total
`S`; the ranges partition `[0, S)` with no gaps or overlaps; the init
payload's `video_size` is `S` and its `chunk_size` is `CHUNK_SIZE` for a
multi-chunk upload and `S` when there is exactly one chunk. -/
theorem c7_tiktok_chunking (env : TTEnv) (S : Nat) (tok : String) (cid : Nat)
    (credDb : List SocialCredential)
    (htok : tok ≠ "")
    (hinit : (env.initResp 0).tokenInvalid = false)
    (hurl : optTruthy (env.initResp 0).uploadUrl = true)
    (hput : ∀ i, i < totalChunkCount S → putAccepted (env.putStatus i) = true) :
    (upload_video_to_tiktok env S (some tok) cid credDb).1 = true ∧
    (upload_video_to_tiktok env S (some tok) cid credDb).2.2 =
      TTEvent.initCall tok (tiktokSourceInfo S) ::
        (List.range (totalChunkCount S)).map
          (fun i => TTEvent.chunkPut (chunkStart i) (chunkEnd S i) S) ∧
    (tiktokSourceInfo S).video_size = S ∧
    (tiktokSourceInfo S).total_chunk_count = totalChunkCount S ∧
    (1 < totalChunkCount S → (tiktokSourceInfo S).chunk_size = CHUNK_SIZE) ∧
    (totalChunkCount S = 1 → (tiktokSourceInfo S).chunk_size = S) ∧
    (∀ i, chunkStart i = i * CHUNK_SIZE ∧
      chunkEnd S i = min (i * CHUNK_SIZE + CHUNK_SIZE - 1) (S - 1)) ∧
    S ≤ totalChunkCount S * CHUNK_SIZE ∧
    (0 < S → (totalChunkCount S - 1) * CHUNK_SIZE < S) ∧
    (∀ k, k < S →
      k / CHUNK_SIZE < totalChunkCount S ∧
      chunkStart (k / CHUNK_SIZE) ≤ k ∧ k ≤ chunkEnd S (k / CHUNK_SIZE) ∧
      ∀ j, j < totalChunkCount S → chunkStart j ≤ k → k ≤ chunkEnd S j →
        j = k / CHUNK_SIZE) := by
  have hbeq : (tok == "") = false := by
    cases hx : tok == "" with
    | false => rfl
    | true => exact absurd (by simpa using hx) htok
  have hmain :
      upload_video_to_tiktok env S (some tok) cid credDb =
        (true, credDb,
          TTEvent.initCall tok (tiktokSourceInfo S) ::
            (List.range (totalChunkCount S)).map
              (fun i => TTEvent.chunkPut (chunkStart i) (chunkEnd S i) S)) := by
    unfold upload_video_to_tiktok
    simp only [hbeq, Bool.false_eq_true, if_false, hinit]
    unfold continueUpload
    simp only [hurl, if_true]
    rw [chunkLoop_all_ok env.putStatus S (totalChunkCount S) 0
      (fun j hj => by simpa using hput j hj)]
    simp
  refine ⟨by rw [hmain], by rw [hmain], rfl, rfl, ?_, ?_, ?_,
    (totalChunkCount_ceil S).1, (totalChunkCount_ceil S).2.2, chunk_partition S⟩
  · intro h1
    unfold tiktokSourceInfo
    simp [h1]
  · intro h1
    unfold tiktokSourceInfo
    rw [h1]
    simp
  · intro i
    exact ⟨rfl, rfl⟩

/-- Witness for C7 with a concrete file of two full chunks plus one byte
(three chunk PUTs). -/
theorem c7_tiktok_chunking_witness :
    (upload_video_to_tiktok ⟨fun _ => ⟨false, some "url"⟩, none, fun _ => 201⟩
        (2 * CHUNK_SIZE + 1) (some "tok") 9 []).1 = true ∧
    (upload_video_to_tiktok ⟨fun _ => ⟨false, some "url"⟩, none, fun _ => 201⟩
        (2 * CHUNK_SIZE + 1) (some "tok") 9 []).2.2 =
      TTEvent.initCall "tok" (tiktokSourceInfo (2 * CHUNK_SIZE + 1)) ::
        (List.range (totalChunkCount (2 * CHUNK_SIZE + 1))).map
          (fun i => TTEvent.chunkPut (chunkStart i)
            (chunkEnd (2 * CHUNK_SIZE + 1) i) (2 * CHUNK_SIZE + 1)) ∧
    (tiktokSourceInfo (2 * CHUNK_SIZE + 1)).video_size = 2 * CHUNK_SIZE + 1 ∧
    (tiktokSourceInfo (2 * CHUNK_SIZE + 1)).total_chunk_count =
      totalChunkCount (2 * CHUNK_SIZE + 1) ∧
    (1 < totalChunkCount (2 * CHUNK_SIZE + 1) →
      (tiktokSourceInfo (2 * CHUNK_SIZE + 1)).chunk_size = CHUNK_SIZE) ∧
    (totalChunkCount (2 * CHUNK_SIZE + 1) = 1 →
      (tiktokSourceInfo (2 * CHUNK_SIZE + 1)).chunk_size = 2 * CHUNK_SIZE + 1) ∧
    (∀ i, chunkStart i = i * CHUNK_SIZE ∧
      chunkEnd (2 * CHUNK_SIZE + 1) i =
        min (i * CHUNK_SIZE + CHUNK_SIZE - 1) (2 * CHUNK_SIZE + 1 - 1)) ∧
    2 * CHUNK_SIZE + 1 ≤ totalChunkCount (2 * CHUNK_SIZE + 1) * CHUNK_SIZE ∧
    (0 < 2 * CHUNK_SIZE + 1 →
      (totalChunkCount (2 * CHUNK_SIZE + 1) - 1) * CHUNK_SIZE < 2 * CHUNK_SIZE + 1) ∧
    (∀ k, k < 2 * CHUNK_SIZE + 1 →
      k / CHUNK_SIZE < totalChunkCount (2 * CHUNK_SIZE + 1) ∧
      chunkStart (k / CHUNK_SIZE) ≤ k ∧
      k ≤ chunkEnd (2 * CHUNK_SIZE + 1) (k / CHUNK_SIZE) ∧
      ∀ j, j < totalChunkCount (2 * CHUNK_SIZE + 1) → chunkStart j ≤ k →
        k ≤ chunkEnd (2 * CHUNK_SIZE + 1) j → j = k / CHUNK_SIZE) :=
  c7_tiktok_chunking ⟨fun _ => ⟨false, some "url"⟩, none, fun _ => 201⟩
    (2 * CHUNK_SIZE + 1) "tok" 9 [] (by decide) rfl rfl (fun i _ => rfl)

/-- The bearer tokens of the init calls in a TikTok trace, in order. -/
def initTokens (evs : List TTEvent) : List String :=
  evs.filterMap (fun e => match e with | .initCall t _ => some t | _ => none)

theorem initTokens_chunkLoop (putStatus : Nat → Nat) (S : Nat) :
    ∀ (fuel i : Nat), initTokens (chunkLoop putStatus S i fuel).2 = [] := by
  intro fuel
  induction fuel with
  | zero => intro i; rfl
  | succ n ih =>
    intro i
    simp only [chunkLoop]
    cases hp : putAccepted (putStatus i) <;>
      simp only [Bool.false_eq_true, if_false, if_true]
    · rfl
    · simp only [initTokens, List.filterMap_cons] at ih ⊢
      exact ih (i+1)

theorem initTokens_continueUpload (env : TTEnv) (S : Nat)
    (db : List SocialCredential) (r : InitResponse) (evs : List TTEvent) :
    initTokens (continueUpload env S db r evs).2.2 = initTokens evs := by
  unfold continueUpload
  cases h : optTruthy r.uploadUrl <;> simp only [Bool.false_eq_true, if_false, if_true]
  have := initTokens_chunkLoop env.putStatus S (totalChunkCount S) 0
  simp only [initTokens, List.filterMap_append] at this ⊢
  simp [this]

theorem continueUpload_db (env : TTEnv) (S : Nat) (db : List SocialCredential)
    (r : InitResponse) (evs : List TTEvent) :
    (continueUpload env S db r evs).2.1 = db := by
  unfold continueUpload
  split <;> rfl

theorem continueUpload_mem (env : TTEnv) (S : Nat) (db : List SocialCredential)
    (r : InitResponse) (evs : List TTEvent) (e : TTEvent) (h : e ∈ evs) :
    e ∈ (continueUpload env S db r evs).2.2 := by
  unfold continueUpload
  split
  · simp [h]
  · exact h

theorem lookupCred_cons (q : SocialCredential) (rest : List SocialCredential)
    (cid : Nat) (pl : String) :
    lookupCred (q :: rest) cid pl =
      if (q.client_id == cid && q.platform == pl) then some q else lookupCred rest cid pl := by
  unfold lookupCred
  cases h : (q.client_id == cid && q.platform == pl) <;> simp [List.find?, h]

theorem lookupCred_updateFirstTiktok (credDb : List SocialCredential) (cid : Nat)
    (t : String) (c : SocialCredential)
    (h : lookupCred credDb cid "tiktok" = some c) :
    lookupCred (updateFirstTiktok credDb cid t) cid "tiktok" =
      some { c with token_data := refreshedBundle t } := by
  induction credDb with
  | nil => simp [lookupCred] at h
  | cons q rest ih =>
    rw [lookupCred_cons] at h
    unfold updateFirstTiktok
    cases hq : (q.client_id == cid && q.platform == "tiktok") with
    | true =>
      rw [hq] at h
      simp at h
      subst h
      rw [if_pos rfl]
      simp [lookupCred_cons, hq]
    | false =>
      rw [hq] at h
      simp only [Bool.false_eq_true, if_false] at h
      rw [if_neg (by simp)]
      rw [lookupCred_cons, hq]
      simp only [Bool.false_eq_true, if_false]
      exact ih h

/-- C8: for a TikTok video upload whose first init response carries the
`access_token_invalid` error: when the refresh exchange yields a new token
and a `(client, tiktok)` credential row exists, the init call is retried
exactly once, with the new token, and the refreshed bundle is committed to
the credential store; when the refresh exchange fails, or no credential
row exists to persist into, the call returns failure after the single
initial init call, with the store unchanged. -/
theorem c8_tiktok_refresh_retry (env : TTEnv) (S : Nat) (tok : String) (cid : Nat)
    (credDb : List SocialCredential)
    (htok : tok ≠ "")
    (hinit : (env.initResp 0).tokenInvalid = true) :
    (∀ t, env.refreshNew = some t →
      ∀ c, lookupCred credDb cid "tiktok" = some c →
        initTokens (upload_video_to_tiktok env S (some tok) cid credDb).2.2 = [tok, t] ∧
        TTEvent.credCommit cid t ∈ (upload_video_to_tiktok env S (some tok) cid credDb).2.2 ∧
        (lookupCred (upload_video_to_tiktok env S (some tok) cid credDb).2.1
            cid "tiktok").map (fun c2 => c2.token_data.access_token) = some (some t)) ∧
    (env.refreshNew = none →
      (upload_video_to_tiktok env S (some tok) cid credDb).1 = false ∧
      initTokens (upload_video_to_tiktok env S (some tok) cid credDb).2.2 = [tok] ∧
      (upload_video_to_tiktok env S (some tok) cid credDb).2.1 = credDb) ∧
    (∀ t, env.refreshNew = some t →
      lookupCred credDb cid "tiktok" = none →
      (upload_video_to_tiktok env S (some tok) cid credDb).1 = false ∧
      initTokens (upload_video_to_tiktok env S (some tok) cid credDb).2.2 = [tok] ∧
      (upload_video_to_tiktok env S (some tok) cid credDb).2.1 = credDb) := by
  have hbeq : (tok == "") = false := by
    cases hx : tok == "" with
    | false => rfl
    | true => exact absurd (by simpa using hx) htok
  refine ⟨?_, ?_, ?_⟩
  · intro t hr c hc
    have hmain :
        upload_video_to_tiktok env S (some tok) cid credDb =
          continueUpload env S (updateFirstTiktok credDb cid t) (env.initResp 1)
            ([TTEvent.initCall tok (tiktokSourceInfo S)] ++
              [TTEvent.refreshHttp, TTEvent.credCommit cid t] ++
              [TTEvent.initCall t (tiktokSourceInfo S)]) := by
      unfold upload_video_to_tiktok
      simp only [hbeq, Bool.false_eq_true, if_false, hinit, if_true]
      unfold refresh_tiktok_token
      rw [hr, hc]
    rw [hmain]
    refine ⟨?_, ?_, ?_⟩
    · rw [initTokens_continueUpload]
      rfl
    · exact continueUpload_mem _ _ _ _ _ _ (by simp)
    · rw [continueUpload_db]
      rw [lookupCred_updateFirstTiktok credDb cid t c hc]
      rfl
  · intro hr
    have hmain :
        upload_video_to_tiktok env S (some tok) cid credDb =
          (false, credDb, [TTEvent.initCall tok (tiktokSourceInfo S)] ++ [TTEvent.refreshHttp]) := by
      unfold upload_video_to_tiktok
      simp only [hbeq, Bool.false_eq_true, if_false, hinit, if_true]
      unfold refresh_tiktok_token
      rw [hr]
    rw [hmain]
    exact ⟨rfl, rfl, rfl⟩
  · intro t hr hc
    have hmain :
        upload_video_to_tiktok env S (some tok) cid credDb =
          (false, credDb, [TTEvent.initCall tok (tiktokSourceInfo S)] ++ [TTEvent.refreshHttp]) := by
      unfold upload_video_to_tiktok
      simp only [hbeq, Bool.false_eq_true, if_false, hinit, if_true]
      unfold refresh_tiktok_token
      rw [hr, hc]
    rw [hmain]
    exact ⟨rfl, rfl, rfl⟩

/-- Witness for C8: expired first init response, successful refresh, and an
existing tiktok credential row. -/
theorem c8_tiktok_refresh_retry_witness :
    (∀ t, (⟨fun k => if k == 0 then ⟨true, none⟩ else ⟨false, some "url"⟩,
        some "newtok", fun _ => 201⟩ : TTEnv).refreshNew = some t →
      ∀ c, lookupCred [⟨9, "tiktok", ⟨some "old", some "ref", none, []⟩⟩] 9 "tiktok" = some c →
        initTokens
          (upload_video_to_tiktok
            ⟨fun k => if k == 0 then ⟨true, none⟩ else ⟨false, some "url"⟩,
             some "newtok", fun _ => 201⟩ 5 (some "tok") 9
            [⟨9, "tiktok", ⟨some "old", some "ref", none, []⟩⟩]).2.2 = ["tok", t] ∧
        TTEvent.credCommit 9 t ∈
          (upload_video_to_tiktok
            ⟨fun k => if k == 0 then ⟨true, none⟩ else ⟨false, some "url"⟩,
             some "newtok", fun _ => 201⟩ 5 (some "tok") 9
            [⟨9, "tiktok", ⟨some "old", some "ref", none, []⟩⟩]).2.2 ∧
        (lookupCred
            (upload_video_to_tiktok
              ⟨fun k => if k == 0 then ⟨true, none⟩ else ⟨false, some "url"⟩,
               some "newtok", fun _ => 201⟩ 5 (some "tok") 9
              [⟨9, "tiktok", ⟨some "old", some "ref", none, []⟩⟩]).2.1
            9 "tiktok").map (fun c2 => c2.token_data.access_token) = some (some t)) ∧
    ((⟨fun k => if k == 0 then ⟨true, none⟩ else ⟨false, some "url"⟩,
        some "newtok", fun _ => 201⟩ : TTEnv).refreshNew = none →
      (upload_video_to_tiktok
        ⟨fun k => if k == 0 then ⟨true, none⟩ else ⟨false, some "url"⟩,
         some "newtok", fun _ => 201⟩ 5 (some "tok") 9
        [⟨9, "tiktok", ⟨some "old", some "ref", none, []⟩⟩]).1 = false ∧
      initTokens
        (upload_video_to_tiktok
          ⟨fun k => if k == 0 then ⟨true, none⟩ else ⟨false, some "url"⟩,
           some "newtok", fun _ => 201⟩ 5 (some "tok") 9
          [⟨9, "tiktok", ⟨some "old", some "ref", none, []⟩⟩]).2.2 = ["tok"] ∧
      (upload_video_to_tiktok
        ⟨fun k => if k == 0 then ⟨true, none⟩ else ⟨false, some "url"⟩,
         some "newtok", fun _ => 201⟩ 5 (some "tok") 9
        [⟨9, "tiktok", ⟨some "old", some "ref", none, []⟩⟩]).2.1 =
        [⟨9, "tiktok", ⟨some "old", some "ref", none, []⟩⟩]) ∧
    (∀ t, (⟨fun k => if k == 0 then ⟨true, none⟩ else ⟨false, some "url"⟩,
        some "newtok", fun _ => 201⟩ : TTEnv).refreshNew = some t →
      lookupCred [⟨9, "tiktok", ⟨some "old", some "ref", none, []⟩⟩] 9 "tiktok" = none →
      (upload_video_to_tiktok
        ⟨fun k => if k == 0 then ⟨true, none⟩ else ⟨false, some "url"⟩,
         some "newtok", fun _ => 201⟩ 5 (some "tok") 9
        [⟨9, "tiktok", ⟨some "old", some "ref", none, []⟩⟩]).1 = false ∧
      initTokens
        (upload_video_to_tiktok
          ⟨fun k => if k == 0 then ⟨true, none⟩ else ⟨false, some "url"⟩,
           some "newtok", fun _ => 201⟩ 5 (some "tok") 9
          [⟨9, "tiktok", ⟨some "old", some "ref", none, []⟩⟩]).2.2 = ["tok"] ∧
      (upload_video_to_tiktok
        ⟨fun k => if k == 0 then ⟨true, none⟩ else ⟨false, some "url"⟩,
         some "newtok", fun _ => 201⟩ 5 (some "tok") 9
        [⟨9, "tiktok", ⟨some "old", some "ref", none, []⟩⟩]).2.1 =
        [⟨9, "tiktok", ⟨some "old", some "ref", none, []⟩⟩]) :=
  c8_tiktok_refresh_retry
    ⟨fun k => if k == 0 then ⟨true, none⟩ else ⟨false, some "url"⟩,
     some "newtok", fun _ => 201⟩ 5 "tok" 9
    [⟨9, "tiktok", ⟨some "old", some "ref", none, []⟩⟩] (by decide) rfl

/-! ## YouTube driver (`publishers/youtube.py`) -/

/-- Remote interactions of the YouTube driver. -/
inductive YTEvent where
  /-- `credentials.refresh(Request())` (line 33) -/
  | refreshCall
  /-- `youtube.videos().insert(...).execute()` — present in the source only
  inside the commented-out block (lines 58-63) -/
  | videosInsert
deriving Repr, DecidableEq

/-- Environment of one YouTube upload: whether the reconstructed
credentials are expired, whether the refresh raises, and whether the media
preparation (`MediaFileUpload`) raises. -/
structure YTEnv where
  credsExpired : Bool
  refreshRaises : Bool
  mediaRaises : Bool

/-- Shallow embedding of `upload_video` (publishers/youtube.py lines
12-74).  The `videos().insert(...).execute()` calls are commented out in
the source (lines 57-64) and replaced by the hardcoded simulated response
`SIMULATED_VIDEO_ID_999` (line 67), so no `videosInsert` event is ever
emitted: the function returns `true` without contacting YouTube whenever
credential reconstruction, the optional refresh, and the media preparation
do not raise. -/
def yt_upload_video (env : YTEnv) : Bool × List YTEvent :=
  if env.credsExpired then
    if env.refreshRaises then (false, [.refreshCall])
    else if env.mediaRaises then (false, [.refreshCall])
    else (true, [.refreshCall])
  else if env.mediaRaises then (false, [])
  else (true, [])

/-- C2 (code-bug evidence): the YouTube driver returns `true` while its
trace contains no remote upload call at all — `videos().insert` is
commented out and the success comes from a hardcoded simulated response
— so a platform is marked succeeded without the remote side confirming
anything, contradicting the claimed invariant. -/
theorem c2_youtube_simulated_success :
    yt_upload_video ⟨false, false, false⟩ = (true, []) ∧
    ∀ env : YTEnv, YTEvent.videosInsert ∉ (yt_upload_video env).2 := by
  refine ⟨rfl, ?_⟩
  intro env
  unfold yt_upload_video
  repeat' split
  all_goals simp

/-! ## Instagram driver (`publishers/instagram.py`) -/

/-- The polling loop of `_wait_for_processing` (lines 61-75), with `fuel`
remaining iterations of `for i in range(retries)`.  `resp i` is the i-th
status response: `none` models an exception in the GET (caught by the
inner `except`, the loop continues), `some st` a response whose
`status_code` field is `st` (`none` when the field is absent).  Returns
the result together with the number of GET attempts performed. -/
def igPollLoop (resp : Nat → Option (Option String)) : Nat → Nat → Bool × Nat
  | _, 0 => (false, 0)
  | i, fuel + 1 =>
    match resp i with
    | none =>
      let r := igPollLoop resp (i+1) fuel
      (r.1, r.2 + 1)
    | some st =>
      if st == some "FINISHED" then (true, 1)
      else if st == some "ERROR" then (false, 1)
      else
        let r := igPollLoop resp (i+1) fuel
        (r.1, r.2 + 1)

/-- `_wait_for_processing(container_id, retries=20)` (line 57). -/
def igWaitForProcessing (resp : Nat → Option (Option String)) : Bool × Nat :=
  igPollLoop resp 0 20

/-- Environment of one Instagram reel publication. -/
structure IGEnv where
  /-- result of `_create_container` — `none` on failure or exception -/
  containerId : Option String
  /-- status responses of the polling GETs -/
  pollResp : Nat → Option (Option String)
  /-- whether the final `media_publish` response carries an `id` -/
  publishOk : Bool

/-- Shallow embedding of `InstagramPublisher.publish_reel` (lines 15-35):
abort without an id from container creation; publish only after the
polling reports `FINISHED`. -/
def igPublishReel (env : IGEnv) : Bool :=
  if optTruthy env.containerId then
    if (igWaitForProcessing env.pollResp).1 then env.publishOk else false
  else false

/-! ## Facebook driver (`publishers/facebook.py`) -/

/-- Outcome of the phase-2.5 polling loop of `FacebookPublisher.publish_reel`. -/
inductive FBPollResult where
  | ready
  | errored
  | timeout
  | raised
deriving Repr, DecidableEq

/-- The `while attempt <= max_attempts` polling loop (lines 90-122).
`resp k` is the k-th status response: `none` models an exception in the
GET — unlike Instagram it is not caught inside the loop and aborts the
whole call; `some st` is a response whose `status.video_status` is `st`.
Returns the outcome and the number of GET attempts performed. -/
def fbPollLoop (resp : Nat → Option (Option String)) : Nat → Nat → FBPollResult × Nat
  | _, 0 => (.timeout, 0)
  | i, fuel + 1 =>
    match resp i with
    | none => (.raised, 1)
    | some st =>
      if st == some "upload_complete" || st == some "ready" then (.ready, 1)
      else if st == some "error" then (.errored, 1)
      else
        let r := fbPollLoop resp (i+1) fuel
        (r.1, r.2 + 1)

/-- The polling phase with its budget `max_attempts = 15` (line 90). -/
def fbPollPhase (resp : Nat → Option (Option String)) : FBPollResult × Nat :=
  fbPollLoop resp 0 15

/-- Environment of one Facebook reel publication. -/
structure FBEnv where
  /-- result of `get_page_access_token` — `none`/empty is falsy -/
  pageToken : Option String
  /-- `init_res.get("video_id")` -/
  videoId : Option String
  /-- truthiness of `upload_res.get("success")` -/
  pullSuccess : Bool
  /-- status responses of the polling GETs -/
  pollResp : Nat → Option (Option String)
  /-- truthiness of `final_res.get("success")` -/
  finishSuccess : Bool

/-- Shallow embedding of `FacebookPublisher.publish_reel` (lines 38-146):
page-token exchange, session init, pull request, polling, finish phase.
A polling outcome other than `ready` — explicit error, timeout, or an
exception (caught by the outer handler) — yields `false` without the
finish call. -/
def fbPublishReel (env : FBEnv) : Bool :=
  if optTruthy env.pageToken then
    if optTruthy env.videoId then
      if env.pullSuccess then
        match (fbPollPhase env.pollResp).1 with
        | .ready => env.finishSuccess
        | _ => false
      else false
    else false
  else false

/-- A status response after which the Instagram polling loop keeps
polling: an exception, or any status other than the terminal
`FINISHED` / `ERROR`. -/
def igContinueB (a : Option (Option String)) : Bool :=
  match a with
  | none => true
  | some st => !(st == some "FINISHED" || st == some "ERROR")

/-- A status response after which the Facebook polling loop keeps polling:
a response whose status is none of `upload_complete`, `ready`, `error`
(an exception aborts the loop instead). -/
def fbContinueB (a : Option (Option String)) : Bool :=
  match a with
  | none => false
  | some st => !(st == some "upload_complete" || st == some "ready" || st == some "error")

theorem igPublishReel_pollFalse (env : IGEnv) (n : Nat)
    (h : igWaitForProcessing env.pollResp = (false, n)) : igPublishReel env = false := by
  unfold igPublishReel
  rw [h]
  split <;> rfl

theorem fbPublishReel_notReady (env : FBEnv) (r : FBPollResult) (n : Nat)
    (h : fbPollPhase env.pollResp = (r, n)) (hr : r ≠ .ready) : fbPublishReel env = false := by
  unfold fbPublishReel
  rw [h]
  cases r
  · exact absurd rfl hr
  all_goals repeat' split
  all_goals try rfl
  all_goals rename_i heq
  all_goals simp at heq

theorem igPollLoop_error (resp : Nat → Option (Option String)) :
    ∀ (fuel k i : Nat), k < fuel →
      resp (i + k) = some (some "ERROR") →
      (∀ j, j < k → igContinueB (resp (i + j)) = true) →
      igPollLoop resp i fuel = (false, k + 1) := by
  intro fuel
  induction fuel with
  | zero => intro k i hk _ _; exact absurd hk (Nat.not_lt_zero k)
  | succ n ih =>
    intro k i hk herr hcont
    cases k with
    | zero =>
      rw [Nat.add_zero] at herr
      simp only [igPollLoop, herr]
      rfl
    | succ m =>
      have hc0 := hcont 0 (by omega)
      rw [Nat.add_zero] at hc0
      cases hr : resp i with
      | none =>
        simp only [igPollLoop, hr]
        rw [ih m (i+1) (by omega)
          (by rwa [show i + 1 + m = i + (m + 1) by omega])
          (fun j hj => by
            have hjj := hcont (j+1) (by omega)
            rwa [show i + (j + 1) = i + 1 + j by omega] at hjj)]
      | some st =>
        rw [hr] at hc0
        simp only [igContinueB, Bool.not_eq_true', Bool.or_eq_false_iff] at hc0
        simp only [igPollLoop, hr, hc0.1, hc0.2, Bool.false_eq_true, if_false]
        rw [ih m (i+1) (by omega)
          (by rwa [show i + 1 + m = i + (m + 1) by omega])
          (fun j hj => by
            have hjj := hcont (j+1) (by omega)
            rwa [show i + (j + 1) = i + 1 + j by omega] at hjj)]

theorem igPollLoop_timeout (resp : Nat → Option (Option String)) :
    ∀ (fuel i : Nat), (∀ j, j < fuel → igContinueB (resp (i + j)) = true) →
      igPollLoop resp i fuel = (false, fuel) := by
  intro fuel
  induction fuel with
  | zero => intro i _; rfl
  | succ n ih =>
    intro i h
    have hc0 := h 0 (by omega)
    rw [Nat.add_zero] at hc0
    cases hr : resp i with
    | none =>
      simp only [igPollLoop, hr]
      rw [ih (i+1) (fun j hj => by
        have hjj := h (j+1) (by omega)
        rwa [show i + (j + 1) = i + 1 + j by omega] at hjj)]
    | some st =>
      rw [hr] at hc0
      simp only [igContinueB, Bool.not_eq_true', Bool.or_eq_false_iff] at hc0
      simp only [igPollLoop, hr, hc0.1, hc0.2, Bool.false_eq_true, if_false]
      rw [ih (i+1) (fun j hj => by
        have hjj := h (j+1) (by omega)
        rwa [show i + (j + 1) = i + 1 + j by omega] at hjj)]

theorem fbPollLoop_error (resp : Nat → Option (Option String)) :
    ∀ (fuel k i : Nat), k < fuel →
      resp (i + k) = some (some "error") →
      (∀ j, j < k → fbContinueB (resp (i + j)) = true) →
      fbPollLoop resp i fuel = (.errored, k + 1) := by
  intro fuel
  induction fuel with
  | zero => intro k i hk _ _; exact absurd hk (Nat.not_lt_zero k)
  | succ n ih =>
    intro k i hk herr hcont
    cases k with
    | zero =>
      rw [Nat.add_zero] at herr
      simp only [fbPollLoop, herr]
      rfl
    | succ m =>
      have hc0 := hcont 0 (by omega)
      rw [Nat.add_zero] at hc0
      cases hr : resp i with
      | none => rw [hr] at hc0; simp [fbContinueB] at hc0
      | some st =>
        rw [hr] at hc0
        simp only [fbContinueB, Bool.not_eq_true', Bool.or_eq_false_iff] at hc0
        simp only [fbPollLoop, hr, hc0.1.1, hc0.1.2, hc0.2, Bool.false_eq_true,
          Bool.or_self, if_false]
        rw [ih m (i+1) (by omega)
          (by rwa [show i + 1 + m = i + (m + 1) by omega])
          (fun j hj => by
            have hjj := hcont (j+1) (by omega)
            rwa [show i + (j + 1) = i + 1 + j by omega] at hjj)]

theorem fbPollLoop_timeout (resp : Nat → Option (Option String)) :
    ∀ (fuel i : Nat), (∀ j, j < fuel → fbContinueB (resp (i + j)) = true) →
      fbPollLoop resp i fuel = (.timeout, fuel) := by
  intro fuel
  induction fuel with
  | zero => intro i _; rfl
  | succ n ih =>
    intro i h
    have hc0 := h 0 (by omega)
    rw [Nat.add_zero] at hc0
    cases hr : resp i with
    | none => rw [hr] at hc0; simp [fbContinueB] at hc0
    | some st =>
      rw [hr] at hc0
      simp only [fbContinueB, Bool.not_eq_true', Bool.or_eq_false_iff] at hc0
      simp only [fbPollLoop, hr, hc0.1.1, hc0.1.2, hc0.2, Bool.false_eq_true,
        Bool.or_self, if_false]
      rw [ih (i+1) (fun j hj => by
        have hjj := h (j+1) (by omega)
        rwa [show i + (j + 1) = i + 1 + j by omega] at hjj)]

/-- C9: Meta status polling.  Instagram: a terminal `ERROR` response at
attempt `k` (with only non-terminal responses before it) stops the loop
immediately — `k+1` GET attempts, not the full budget of 20 — and the
driver fails; a run of only non-terminal responses stops after exactly 20
attempts with failure.  Facebook: a terminal `error` status at attempt `m`
stops the loop immediately — `m+1` attempts, not the full budget of 15 —
and the driver fails; a run of only non-terminal statuses stops after
exactly 15 attempts with a timeout and the driver fails. -/
theorem c9_meta_polling (igEnv : IGEnv) (fbEnv : FBEnv) (k m : Nat) :
    (k < 20 → igEnv.pollResp k = some (some "ERROR") →
      (∀ j, j < k → igContinueB (igEnv.pollResp j) = true) →
      igWaitForProcessing igEnv.pollResp = (false, k + 1) ∧ igPublishReel igEnv = false) ∧
    ((∀ j, j < 20 → igContinueB (igEnv.pollResp j) = true) →
      igWaitForProcessing igEnv.pollResp = (false, 20) ∧ igPublishReel igEnv = false) ∧
    (m < 15 → fbEnv.pollResp m = some (some "error") →
      (∀ j, j < m → fbContinueB (fbEnv.pollResp j) = true) →
      fbPollPhase fbEnv.pollResp = (.errored, m + 1) ∧ fbPublishReel fbEnv = false) ∧
    ((∀ j, j < 15 → fbContinueB (fbEnv.pollResp j) = true) →
      fbPollPhase fbEnv.pollResp = (.timeout, 15) ∧ fbPublishReel fbEnv = false) := by
  refine ⟨?_, ?_, ?_, ?_⟩
  · intro hk herr hcont
    have hwait : igWaitForProcessing igEnv.pollResp = (false, k + 1) := by
      unfold igWaitForProcessing
      exact igPollLoop_error igEnv.pollResp 20 k 0 hk (by simpa using herr)
        (fun j hj => by simpa using hcont j hj)
    exact ⟨hwait, igPublishReel_pollFalse igEnv (k + 1) hwait⟩
  · intro hcont
    have hwait : igWaitForProcessing igEnv.pollResp = (false, 20) := by
      unfold igWaitForProcessing
      exact igPollLoop_timeout igEnv.pollResp 20 0
        (fun j hj => by simpa using hcont j hj)
    exact ⟨hwait, igPublishReel_pollFalse igEnv 20 hwait⟩
  · intro hm herr hcont
    have hpoll : fbPollPhase fbEnv.pollResp = (.errored, m + 1) := by
      unfold fbPollPhase
      exact fbPollLoop_error fbEnv.pollResp 15 m 0 hm (by simpa using herr)
        (fun j hj => by simpa using hcont j hj)
    exact ⟨hpoll, fbPublishReel_notReady fbEnv .errored (m + 1) hpoll (by decide)⟩
  · intro hcont
    have hpoll : fbPollPhase fbEnv.pollResp = (.timeout, 15) := by
      unfold fbPollPhase
      exact fbPollLoop_timeout fbEnv.pollResp 15 0
        (fun j hj => by simpa using hcont j hj)
    exact ⟨hpoll, fbPublishReel_notReady fbEnv .timeout 15 hpoll (by decide)⟩

/-- Witness for C9: Instagram sees `IN_PROGRESS` twice and then `ERROR`
at the third attempt; Facebook sees `processing` on every attempt and
times out. -/
theorem c9_meta_polling_witness :
    ((2 : Nat) < 20 →
      (⟨some "c1", fun j => if j < 2 then some (some "IN_PROGRESS")
          else some (some "ERROR"), true⟩ : IGEnv).pollResp 2 = some (some "ERROR") →
      (∀ j, j < 2 → igContinueB
        ((⟨some "c1", fun j => if j < 2 then some (some "IN_PROGRESS")
            else some (some "ERROR"), true⟩ : IGEnv).pollResp j) = true) →
      igWaitForProcessing
        (⟨some "c1", fun j => if j < 2 then some (some "IN_PROGRESS")
            else some (some "ERROR"), true⟩ : IGEnv).pollResp = (false, 3) ∧
      igPublishReel
        (⟨some "c1", fun j => if j < 2 then some (some "IN_PROGRESS")
            else some (some "ERROR"), true⟩ : IGEnv) = false) ∧
    ((∀ j, j < 20 → igContinueB
        ((⟨some "c1", fun j => if j < 2 then some (some "IN_PROGRESS")
            else some (some "ERROR"), true⟩ : IGEnv).pollResp j) = true) →
      igWaitForProcessing
        (⟨some "c1", fun j => if j < 2 then some (some "IN_PROGRESS")
            else some (some "ERROR"), true⟩ : IGEnv).pollResp = (false, 20) ∧
      igPublishReel
        (⟨some "c1", fun j => if j < 2 then some (some "IN_PROGRESS")
            else some (some "ERROR"), true⟩ : IGEnv) = false) ∧
    ((5 : Nat) < 15 →
      (⟨some "ptok", some "vid", true, fun _ => some (some "processing"),
          true⟩ : FBEnv).pollResp 5 = some (some "error") →
      (∀ j, j < 5 → fbContinueB
        ((⟨some "ptok", some "vid", true, fun _ => some (some "processing"),
            true⟩ : FBEnv).pollResp j) = true) →
      fbPollPhase
        (⟨some "ptok", some "vid", true, fun _ => some (some "processing"),
            true⟩ : FBEnv).pollResp = (.errored, 6) ∧
      fbPublishReel
        (⟨some "ptok", some "vid", true, fun _ => some (some "processing"),
            true⟩ : FBEnv) = false) ∧
    ((∀ j, j < 15 → fbContinueB
        ((⟨some "ptok", some "vid", true, fun _ => some (some "processing"),
            true⟩ : FBEnv).pollResp j) = true) →
      fbPollPhase
        (⟨some "ptok", some "vid", true, fun _ => some (some "processing"),
            true⟩ : FBEnv).pollResp = (.timeout, 15) ∧
      fbPublishReel
        (⟨some "ptok", some "vid", true, fun _ => some (some "processing"),
            true⟩ : FBEnv) = false) :=
  c9_meta_polling
    ⟨some "c1", fun j => if j < 2 then some (some "IN_PROGRESS")
        else some (some "ERROR"), true⟩
    ⟨some "ptok", some "vid", true, fun _ => some (some "processing"), true⟩ 2 5
